import Mathlib

/-! Turn-simulation pipeline of `fuzzer/main.go`.

A shallow embedding of the board converters (`convertBoardToState`,
`convertStateToBoard` and their helpers) and of the turn advancer
(`createNextBoardState`), followed by the properties established for them.

Conventions of the embedding:

* Go slices are lists (a `nil` slice and an empty slice are both `[]`).
* Go `int` values are `Int`; the only arithmetic in the file, `Turn += 1`,
  is wrapped to the 64-bit two's-complement range by `wrapInt64`.
* A pointer `*rules.BoardState` is an `Option rules.BoardState` (`none` is `nil`).
* A run-time panic is the `error` side of `Except Panic`.
* The packages `rules`, `client` and `maps` are imported by the file but are
  not part of it: their types are modelled below, and the ruleset and map
  collaborators are parameters (`Providers`).
-/

namespace Fuzzer

/-- Run-time panics that the code of `main.go` itself can raise. -/
inductive Panic where
  | indexOutOfRange
  | nilDereference
  deriving DecidableEq, Repr

/-- Equality of `Except` values is decidable when it is on both sides. -/
instance instDecidableEqExcept {ε α : Type} [DecidableEq ε] [DecidableEq α] :
    DecidableEq (Except ε α)
  | .ok a, .ok b => if h : a = b then isTrue (by rw [h]) else isFalse (by simpa using h)
  | .error a, .error b => if h : a = b then isTrue (by rw [h]) else isFalse (by simpa using h)
  | .ok _, .error _ => isFalse (by simp)
  | .error _, .ok _ => isFalse (by simp)

/-! ## Package `rules`: internal representation -/

namespace rules

/-- Modelled from the spec: `rules.Point`, an integer (x, y) grid coordinate. -/
structure Point where
  X : Int
  Y : Int
  deriving DecidableEq, Repr

/-- Modelled from the spec: the constant `rules.NotEliminated`, the elimination
status of a player that is still in play (the zero value of the status). -/
def NotEliminated : String := ""

/-- Modelled from the spec: `rules.Snake`, the internal player: id, health, body
segments (head first) and elimination status. -/
structure Snake where
  ID : String := ""
  Body : List Point := []
  Health : Int := 0
  EliminatedCause : String := ""
  deriving DecidableEq, Repr

/-- Modelled from the spec: `rules.BoardState`, the internal board. -/
structure BoardState where
  Turn : Int
  Height : Int
  Width : Int
  Food : List Point
  Snakes : List Snake
  Hazards : List Point
  deriving DecidableEq, Repr

/-- Modelled from the spec: `rules.SnakeMove`, a player id paired with its
requested direction. -/
structure SnakeMove where
  ID : String
  Move : String
  deriving DecidableEq, Repr

/-- Modelled from the spec: `rules.NewBoardState`, a fresh board of the given
width and height, turn 0, no food, no hazards, no players. -/
def NewBoardState (width height : Int) : BoardState :=
  { Turn := 0, Height := height, Width := width, Food := [], Snakes := [], Hazards := [] }

/-- Modelled from the spec: `(*BoardState).WithFood` sets the food points. -/
def BoardState.WithFood (state : BoardState) (food : List Point) : BoardState :=
  { state with Food := food }

/-- Modelled from the spec: `(*BoardState).WithHazards` sets the hazard points. -/
def BoardState.WithHazards (state : BoardState) (hazards : List Point) : BoardState :=
  { state with Hazards := hazards }

/-- Modelled from the spec: `(*BoardState).WithSnakes` sets the players. -/
def BoardState.WithSnakes (state : BoardState) (snakes : List Snake) : BoardState :=
  { state with Snakes := snakes }

end rules

/-! ## Package `client`: wire representation -/

namespace client

/-- Modelled from the spec: `client.Coord`, a wire coordinate. -/
structure Coord where
  X : Int
  Y : Int
  deriving DecidableEq, Repr

/-- Modelled from the spec: `client.Customizations`, the customization payload
of a wire player; its zero value is the empty payload. -/
structure Customizations where
  Color : String := ""
  Head : String := ""
  Tail : String := ""
  deriving DecidableEq, Repr

/-- Modelled from the spec: `client.Snake`, the wire player, with the
presentation-only fields that the internal player lacks. -/
structure Snake where
  ID : String
  Name : String
  Latency : String
  Health : Int
  Body : List Coord
  Head : Coord
  Length : Int
  Shout : String
  Customizations : Customizations
  deriving DecidableEq, Repr

/-- Modelled from the spec: `client.Board`, the wire board. -/
structure Board where
  Height : Int
  Width : Int
  Snakes : List Snake
  Food : List Coord
  Hazards : List Coord
  deriving DecidableEq, Repr

/-- Modelled from the spec: `client.CoordFromPoint` copies x and y. -/
def CoordFromPoint (pt : rules.Point) : Coord :=
  { X := pt.X, Y := pt.Y }

/-- Modelled from the spec: `client.CoordFromPointArray` maps a point sequence
back to a wire coordinate list, element by element. -/
def CoordFromPointArray (ptArray : List rules.Point) : List Coord :=
  ptArray.foldl (fun a pt => a ++ [CoordFromPoint pt]) []

end client

/-! ## Decode: wire board to board state (`main.go` lines 20-49) -/

/-- `convertCoordsToPoints`: the loop appends one point per coordinate. -/
def convertCoordsToPoints (coords : List client.Coord) : List rules.Point :=
  coords.foldl (fun points coord => points ++ [{ X := coord.X, Y := coord.Y }]) []

/-- `convertSnake`: copies id and health, converts the body; every other field
of the internal player keeps its zero value. -/
def convertSnake (orig : client.Snake) : rules.Snake :=
  { ID := orig.ID, Health := orig.Health, Body := convertCoordsToPoints orig.Body }

/-- `convertSnakes`: the loop appends one converted player per wire player. -/
def convertSnakes (orig : List client.Snake) : List rules.Snake :=
  orig.foldl (fun snakes snake => snakes ++ [convertSnake snake]) []

/-- `convertBoardToState`. -/
def convertBoardToState (board : client.Board) : rules.BoardState :=
  (((rules.NewBoardState board.Width board.Height).WithFood
      (convertCoordsToPoints board.Food)).WithHazards
      (convertCoordsToPoints board.Hazards)).WithSnakes
      (convertSnakes board.Snakes)

/-! ## Encode: board state to wire board (`main.go` lines 83-116) -/

/-- `fmt.Sprint` at an `int` argument: its decimal text. -/
def fmtSprint (n : Int) : String := toString n

/-- `convertRulesSnake`: panics on `snake.Body[0]` when the body is empty. -/
def convertRulesSnake (snake : rules.Snake) : Except Panic client.Snake :=
  let latencyMS : Int := 0
  match snake.Body[0]? with
  | none => .error Panic.indexOutOfRange
  | some head =>
    .ok { ID := snake.ID
          Name := "fuzzer"
          Health := snake.Health
          Body := client.CoordFromPointArray snake.Body
          Latency := fmtSprint latencyMS
          Head := client.CoordFromPoint head
          Length := (snake.Body.length : Int)
          Shout := ""
          Customizations := {} }

/-- `convertRulesSnakes`: the loop appends the conversion of every player whose
`EliminatedCause` is `NotEliminated`; a panic in the body aborts the loop. -/
def convertRulesSnakes (snakes : List rules.Snake) : Except Panic (List client.Snake) :=
  snakes.foldlM
    (fun a snake =>
      if snake.EliminatedCause = rules.NotEliminated then
        (convertRulesSnake snake).map (fun c => a ++ [c])
      else
        .ok a)
    []

/-- `convertStateToBoard`. -/
def convertStateToBoard (boardState : rules.BoardState) : Except Panic client.Board :=
  (convertRulesSnakes boardState.Snakes).map fun snakes =>
    { Height := boardState.Height
      Width := boardState.Width
      Food := client.CoordFromPointArray boardState.Food
      Hazards := client.CoordFromPointArray boardState.Hazards
      Snakes := snakes }

/-! ## Errors (`error` values, `fmt.Errorf`) -/

/-- A Go `error` value: a plain error carrying its text, or the result of
`fmt.Errorf` with a `%w` verb, which carries its text and the wrapped error. -/
inductive GoError where
  | errorString (s : String)
  | wrapError (msg : String) (err : GoError)
  deriving DecidableEq, Repr

/-- The `Error()` method: the text of the error. -/
def GoError.Error : GoError → String
  | .errorString s => s
  | .wrapError msg _ => msg

/-- The `Unwrap()` method: the wrapped error, when there is one. -/
def GoError.Unwrap : GoError → Option GoError
  | .errorString _ => none
  | .wrapError _ err => some err

/-- The `%#v` verb at a string argument without characters to escape: the
string between double quotes. -/
def fmtSharpV (s : String) : String := "\"" ++ s ++ "\""

/-- The text put in front of the map-resolution error (line 58), up to the map name. -/
def loadMapContext : String := "Failed to load game map "

/-- The text put in front of a pre-update error (line 64). -/
def preUpdateContext : String := "Error pre-updating board with game map: "

/-- The text put in front of an execute error (line 69). -/
def executeContext : String := "Error updating board state from ruleset: "

/-- The text put in front of a post-update error (line 75). -/
def postUpdateContext : String := "Error post-updating board with game map: "

/-- `fmt.Errorf(context + "%w", err)`: the text is the context followed by the
text of `err`, and the result wraps `err`. -/
def errorfW (context : String) (err : GoError) : GoError :=
  .wrapError (context ++ err.Error) err

/-! ## Turn advancer (`main.go` lines 51-81) -/

/-- Go `int` on a 64-bit platform: the value of `n` after wrap-around. -/
def wrapInt64 (n : Int) : Int := (n + 2 ^ 63) % 2 ^ 64 - 2 ^ 63

/-- The ruleset collaborator (`rules.Ruleset`): its settings and its `Execute`
method, which returns a flag (ignored by the caller), a state pointer and an error. -/
structure Ruleset (σ : Type) where
  Settings : σ
  Execute : Option rules.BoardState → List rules.SnakeMove →
    Bool × Option rules.BoardState × Option GoError

/-- The collaborators of the turn advancer, none of which is defined in
`main.go`: the ruleset registry, the map registry and the two map hooks of
package `maps`. `μ` is the type of game maps, `σ` the type of ruleset settings. -/
structure Providers (μ σ : Type) where
  NamedRuleset : String → Ruleset σ
  GetMap : String → Except GoError μ
  PreUpdateBoard : μ → Option rules.BoardState → σ → Option rules.BoardState × Option GoError
  PostUpdateBoard : μ → Option rules.BoardState → σ → Option rules.BoardState × Option GoError

/-- The calls that `createNextBoardState` makes to its collaborators. -/
inductive Call where
  | GetMap
  | PreUpdateBoard
  | Execute
  | PostUpdateBoard
  deriving DecidableEq, Repr

/-- What one run of `createNextBoardState` does: the collaborator calls it
made, in order, and what it returned (a state pointer and an error) or the
panic that ended it. -/
structure Run where
  calls : List Call
  result : Except Panic (Option rules.BoardState × Option GoError)
  deriving DecidableEq

/-- `createNextBoardState`. Each `boardState, err := ...` assigns the pointer
returned by the collaborator to the parameter `boardState`, so every later
`return boardState, ...` returns that pointer. -/
def createNextBoardState {μ σ : Type} (env : Providers μ σ)
    (boardState : Option rules.BoardState) (moves : List rules.SnakeMove) : Run :=
  let ruleset := env.NamedRuleset "standard"
  let gameMapName := "standard"
  match env.GetMap gameMapName with
  | .error err =>
    { calls := [.GetMap]
      result := .ok (none,
        some (.errorString (loadMapContext ++ fmtSharpV gameMapName ++ ": " ++ err.Error))) }
  | .ok gameMap =>
    match env.PreUpdateBoard gameMap boardState ruleset.Settings with
    | (boardState, some pre_update_err) =>
      { calls := [.GetMap, .PreUpdateBoard]
        result := .ok (boardState, some (errorfW preUpdateContext pre_update_err)) }
    | (boardState, none) =>
      match ruleset.Execute boardState moves with
      | (_, boardState, some execute_err) =>
        { calls := [.GetMap, .PreUpdateBoard, .Execute]
          result := .ok (boardState, some (errorfW executeContext execute_err)) }
      | (_, boardState, none) =>
        match env.PostUpdateBoard gameMap boardState ruleset.Settings with
        | (boardState, some post_update_err) =>
          { calls := [.GetMap, .PreUpdateBoard, .Execute, .PostUpdateBoard]
            result := .ok (boardState, some (errorfW postUpdateContext post_update_err)) }
        | (boardState, none) =>
          match boardState with
          | none =>
            { calls := [.GetMap, .PreUpdateBoard, .Execute, .PostUpdateBoard]
              result := .error Panic.nilDereference }
          | some state =>
            { calls := [.GetMap, .PreUpdateBoard, .Execute, .PostUpdateBoard]
              result := .ok (some { state with Turn := wrapInt64 (state.Turn + 1) }, none) }

/-! ## Request handler (`main.go` lines 15-18 and 118-145) -/

namespace client

/-- Modelled from the spec: `client.SnakeRequest`, the wire game snapshot: its
turn number and its board (the handler reads the board only). -/
structure SnakeRequest where
  Turn : Int
  Board : Board
  deriving DecidableEq, Repr

end client

/-- `SimulateRequest`: the game snapshot and the moves. -/
structure SimulateRequest where
  Game : client.SnakeRequest
  Moves : List rules.SnakeMove
  deriving DecidableEq, Repr

/-- The JSON codec of the handler, which is not defined in `main.go`:
`json.Unmarshal` into a `SimulateRequest`, and the text that
`json.NewEncoder(w).Encode` writes for a board (without its final newline). -/
structure Codec where
  Unmarshal : String → Except GoError SimulateRequest
  Marshal : client.Board → String

/-- `http.StatusBadRequest`. -/
def StatusBadRequest : Nat := 400

/-- `http.StatusOK`, the status of a response whose body is written without an
explicit status. -/
def StatusOK : Nat := 200

/-- How the handling of one request ends: a response was written, `log.Fatal`
ended the process, or the handler panicked before writing anything. -/
inductive Outcome where
  | response (status : Nat) (body : String)
  | fatal (err : GoError)
  | panic (p : Panic)
  deriving DecidableEq, Repr

/-- What the handling of one request does: the lines printed on standard
output, the collaborator calls made by the turn advancer (none when the
advancer is not called) and the outcome. -/
structure Handled where
  stdout : List String
  calls : List Call
  outcome : Outcome
  deriving DecidableEq

/-- `http.Error(w, error, code)`: the status `code` and the text followed by a
newline. -/
def httpError (error : String) (code : Nat) : Outcome :=
  .response code (error ++ "\n")

/-- `hello`. The argument `body` is the result of `io.ReadAll(r.Body)`. -/
def hello {μ σ : Type} (env : Providers μ σ) (codec : Codec) (body : Except GoError String) :
    Handled :=
  match body with
  | .error err => { stdout := [], calls := [], outcome := .fatal err }
  | .ok bodyString =>
    let printed := ["Request received " ++ bodyString]
    match codec.Unmarshal bodyString with
    | .error json_err =>
      { stdout := printed, calls := [], outcome := httpError json_err.Error StatusBadRequest }
    | .ok req =>
      let boardState := convertBoardToState req.Game.Board
      let run := createNextBoardState env (some boardState) req.Moves
      match run.result with
      | .error p => { stdout := printed, calls := run.calls, outcome := .panic p }
      | .ok (_, some simulateErr) =>
        { stdout := printed, calls := run.calls
          outcome := httpError simulateErr.Error StatusBadRequest }
      | .ok (none, none) =>
        { stdout := printed, calls := run.calls, outcome := .panic Panic.nilDereference }
      | .ok (some newState, none) =>
        match convertStateToBoard newState with
        | .error p => { stdout := printed, calls := run.calls, outcome := .panic p }
        | .ok newBoard =>
          { stdout := printed, calls := run.calls
            outcome := .response StatusOK (codec.Marshal newBoard ++ "\n") }

/-! ## States, boards and stub collaborators used in the examples -/

/-- A wire board with one player, whose body list is empty. -/
def boardWithEmptyBody : client.Board :=
  { Height := 11, Width := 11, Food := [⟨1, 1⟩], Hazards := []
    Snakes :=
      [ { ID := "a", Name := "one", Latency := "12", Health := 100, Body := [], Head := ⟨0, 0⟩,
          Length := 0, Shout := "", Customizations := {} } ] }

/-- A state with an eliminated player between two players still in play. -/
def stateWithEliminated : rules.BoardState :=
  { Turn := 3, Height := 11, Width := 11, Food := [⟨1, 1⟩], Hazards := []
    Snakes :=
      [ { ID := "a", Body := [⟨5, 5⟩, ⟨5, 4⟩], Health := 90 },
        { ID := "b", Body := [⟨2, 2⟩], Health := 0, EliminatedCause := "snake-collision" },
        { ID := "c", Body := [⟨7, 7⟩], Health := 40 } ] }

/-- The wire player that `convertRulesSnake` makes of a player that is in play. -/
def wireOf (id : String) (health : Int) (head : client.Coord) (tail : List client.Coord) :
    client.Snake :=
  { ID := id, Name := "fuzzer", Latency := "0", Health := health, Body := head :: tail,
    Head := head, Length := (tail.length : Int) + 1, Shout := "", Customizations := {} }

/-- The encoding of `stateWithEliminated`. -/
def boardWithoutEliminated : client.Board :=
  { Height := 11, Width := 11, Food := [⟨1, 1⟩], Hazards := []
    Snakes := [wireOf "a" 90 ⟨5, 5⟩ [⟨5, 4⟩], wireOf "c" 40 ⟨7, 7⟩ []] }

/-- A map hook that returns its argument and no error. -/
def noopHook (_ : Unit) (boardState : Option rules.BoardState) (_ : Unit) :
    Option rules.BoardState × Option GoError :=
  (boardState, none)

/-- A ruleset whose `Execute` returns its argument and no error. -/
def noopRuleset : Ruleset Unit :=
  { Settings := (), Execute := fun boardState _ => (false, boardState, none) }

/-- Collaborators that resolve every name and change nothing. -/
def noopProviders : Providers Unit Unit :=
  { NamedRuleset := fun _ => noopRuleset
    GetMap := fun _ => .ok ()
    PreUpdateBoard := noopHook
    PostUpdateBoard := noopHook }

/-- A ruleset whose `Execute` sets the turn counter to 0. -/
def turnResettingRuleset : Ruleset Unit :=
  { Settings := ()
    Execute := fun boardState _ =>
      (false, boardState.map (fun state => { state with Turn := 0 }), none) }

/-- `noopProviders` with the ruleset that resets the turn counter. -/
def turnResettingProviders : Providers Unit Unit :=
  { noopProviders with NamedRuleset := fun _ => turnResettingRuleset }

/-- A state whose turn counter is the largest 64-bit `int`. -/
def stateAtMaxTurn : rules.BoardState :=
  { Turn := 2 ^ 63 - 1, Height := 11, Width := 11, Food := [], Hazards := []
    Snakes := [{ ID := "a", Body := [⟨5, 5⟩, ⟨5, 4⟩], Health := 100 }] }

/-- An error for the stub collaborators to report. -/
def stubError : GoError := .errorString "stub failure"

/-- `noopProviders` with a pre-update hook that fails and returns a nil pointer. -/
def preFailingProviders : Providers Unit Unit :=
  { noopProviders with PreUpdateBoard := fun _ _ _ => (none, some stubError) }

/-- `noopProviders` with a ruleset whose `Execute` empties the food, then fails. -/
def executeFailingProviders : Providers Unit Unit :=
  { noopProviders with
    NamedRuleset := fun _ =>
      { Settings := ()
        Execute := fun boardState _ =>
          (false, boardState.map (fun state => { state with Food := [] }), some stubError) } }

/-- `noopProviders` with a post-update hook that empties the hazards, then fails. -/
def postFailingProviders : Providers Unit Unit :=
  { noopProviders with
    PostUpdateBoard := fun _ boardState _ =>
      (boardState.map (fun state => { state with Hazards := [] }), some stubError) }

/-- The point next to `p` in the direction `move`. -/
def stepPoint (p : rules.Point) (move : String) : rules.Point :=
  if move = "up" then ⟨p.X, p.Y + 1⟩
  else if move = "down" then ⟨p.X, p.Y - 1⟩
  else if move = "left" then ⟨p.X - 1, p.Y⟩
  else ⟨p.X + 1, p.Y⟩

/-- A player after its move, for the minimal ruleset: the head steps in the
direction of the move, the body follows, and health drops by 1. -/
def minimalMove (moves : List rules.SnakeMove) (snake : rules.Snake) : rules.Snake :=
  match moves.find? (fun mv => mv.ID = snake.ID), snake.Body with
  | some mv, head :: rest =>
    { snake with
      Body := stepPoint head mv.Move :: (head :: rest).dropLast
      Health := snake.Health - 1 }
  | _, _ => snake

/-- A minimal ruleset: `Execute` moves every player that has a move. -/
def minimalRuleset : Ruleset Unit :=
  { Settings := ()
    Execute := fun boardState moves =>
      (false,
        boardState.map (fun state => { state with Snakes := state.Snakes.map (minimalMove moves) }),
        none) }

/-- A map that changes nothing, with the minimal ruleset. -/
def minimalProviders : Providers Unit Unit :=
  { noopProviders with NamedRuleset := fun _ => minimalRuleset }

/-- An 11x11 board with one food point, no hazards and one player of health 100
whose body is (5,5), (5,4). -/
def onePlayerState : rules.BoardState :=
  { Turn := 7, Height := 11, Width := 11, Food := [⟨3, 3⟩], Hazards := []
    Snakes := [{ ID := "a", Body := [⟨5, 5⟩, ⟨5, 4⟩], Health := 100 }] }

/-- The state `onePlayerState` after the player moved up. -/
def onePlayerMovedUp : rules.BoardState :=
  { onePlayerState with Snakes := [{ ID := "a", Body := [⟨5, 6⟩, ⟨5, 5⟩], Health := 99 }] }

/-- `noopProviders` with a pre-update hook that replaces the hazards, then fails. -/
def preMutatingProviders : Providers Unit Unit :=
  { noopProviders with
    PreUpdateBoard := fun _ boardState _ =>
      (boardState.map (fun state => { state with Hazards := [⟨0, 0⟩] }), some stubError) }

/-- `noopProviders` with a map registry that knows no map. -/
def unknownMapProviders : Providers Unit Unit :=
  { noopProviders with GetMap := fun _ => .error (.errorString "map not found") }

/-- A wire board with two players and the presentation fields of a real game. -/
def boardDressed : client.Board :=
  { Height := 7, Width := 9, Food := [⟨1, 1⟩, ⟨2, 6⟩], Hazards := [⟨0, 0⟩]
    Snakes :=
      [ { ID := "a", Name := "alpha", Latency := "120", Health := 77,
          Body := [⟨5, 5⟩, ⟨5, 4⟩], Head := ⟨5, 5⟩, Length := 2, Shout := "hi",
          Customizations := { Color := "#ff0000", Head := "beluga", Tail := "bolt" } },
        { ID := "b", Name := "beta", Latency := "45", Health := 12,
          Body := [⟨3, 3⟩], Head := ⟨3, 3⟩, Length := 1, Shout := "",
          Customizations := {} } ] }

/-- The board `boardDressed` with other presentation fields: names, latencies,
shouts, customizations, heads and lengths differ, the rest is the same. -/
def boardPlain : client.Board :=
  { Height := 7, Width := 9, Food := [⟨1, 1⟩, ⟨2, 6⟩], Hazards := [⟨0, 0⟩]
    Snakes :=
      [ { ID := "a", Name := "", Latency := "", Health := 77,
          Body := [⟨5, 5⟩, ⟨5, 4⟩], Head := ⟨0, 0⟩, Length := 0, Shout := "",
          Customizations := {} },
        { ID := "b", Name := "other", Latency := "x", Health := 12,
          Body := [⟨3, 3⟩], Head := ⟨9, 9⟩, Length := 40, Shout := "boo",
          Customizations := { Color := "#00ff00", Head := "", Tail := "" } } ] }

/-- A wire board with no food, no hazards and no players. -/
def emptyBoard : client.Board :=
  { Height := 11, Width := 11, Food := [], Hazards := [], Snakes := [] }

/-- A wire board whose only player has an empty body list. -/
def bodilessBoard : client.Board :=
  { Height := 11, Width := 11, Food := [], Hazards := []
    Snakes :=
      [ { ID := "a", Name := "", Latency := "", Health := 100, Body := [], Head := ⟨0, 0⟩,
          Length := 0, Shout := "", Customizations := {} } ] }

/-- A state whose eliminated player has an empty body, next to a player in
play with a body of one point. -/
def stateWithEmptyEliminated : rules.BoardState :=
  { Turn := 0, Height := 11, Width := 11, Food := [], Hazards := []
    Snakes :=
      [ { ID := "gone", Body := [], Health := 0, EliminatedCause := "out-of-health" },
        { ID := "here", Body := [⟨4, 4⟩], Health := 60 } ] }

/-- A request about `boardDressed` with a move for each of its players. -/
def dressedRequest : SimulateRequest :=
  { Game := { Turn := 5, Board := boardDressed }, Moves := [⟨"a", "up"⟩, ⟨"b", "left"⟩] }

/-- A request about `bodilessBoard`. -/
def bodilessRequest : SimulateRequest :=
  { Game := { Turn := 0, Board := bodilessBoard }, Moves := [⟨"a", "up"⟩] }

/-- A codec that reads two request texts and rejects every other text, and
writes a board as its dimensions and its number of players. -/
def stubCodec : Codec :=
  { Unmarshal := fun text =>
      if text = "dressed" then .ok dressedRequest
      else if text = "bodiless" then .ok bodilessRequest
      else .error (.errorString "unexpected end of JSON input")
    Marshal := fun board =>
      toString board.Width ++ "x" ++ toString board.Height ++ " board, "
        ++ toString board.Snakes.length ++ " players" }

/-- A wire board with a player that has a body and a player that has none. -/
def boardWithHeadlessPlayer : client.Board :=
  { Height := 11, Width := 11, Food := [⟨1, 1⟩], Hazards := []
    Snakes :=
      [ { ID := "a", Name := "alpha", Latency := "0", Health := 100,
          Body := [⟨5, 5⟩, ⟨5, 4⟩], Head := ⟨5, 5⟩, Length := 2, Shout := "",
          Customizations := {} },
        { ID := "b", Name := "beta", Latency := "0", Health := 100, Body := [], Head := ⟨0, 0⟩,
          Length := 0, Shout := "", Customizations := {} } ] }

/-! ## Basic facts about the converters -/

theorem foldl_append_singleton {α β : Type} (f : α → β) (xs : List α) (acc : List β) :
    xs.foldl (fun a x => a ++ [f x]) acc = acc ++ xs.map f := by
  induction xs generalizing acc with
  | nil => simp
  | cons x xs ih => simp [ih]

theorem convertCoordsToPoints_eq_map (coords : List client.Coord) :
    convertCoordsToPoints coords = coords.map (fun c => ({ X := c.X, Y := c.Y } : rules.Point)) := by
  simp [convertCoordsToPoints, foldl_append_singleton]

theorem coordFromPointArray_eq_map (pts : List rules.Point) :
    client.CoordFromPointArray pts = pts.map client.CoordFromPoint := by
  simp [client.CoordFromPointArray, foldl_append_singleton]

theorem convertSnakes_eq_map (orig : List client.Snake) :
    convertSnakes orig = orig.map convertSnake := by
  simp [convertSnakes, foldl_append_singleton]

theorem coordFromPointArray_convertCoordsToPoints (coords : List client.Coord) :
    client.CoordFromPointArray (convertCoordsToPoints coords) = coords := by
  rw [convertCoordsToPoints_eq_map, coordFromPointArray_eq_map, List.map_map]
  conv_rhs => rw [← List.map_id coords]
  apply List.map_congr_left
  intro c _
  rfl

/-- Every element on the right of a pointwise relation has a partner on the left. -/
theorem forall₂_exists_left {α β : Type} {R : α → β → Prop} {xs : List α} {ys : List β}
    (h : List.Forall₂ R xs ys) {y : β} (hy : y ∈ ys) : ∃ x ∈ xs, R x y := by
  induction h with
  | nil => cases hy
  | cons hab _ ih =>
    rcases List.mem_cons.mp hy with rfl | hmem
    · exact ⟨_, List.mem_cons_self _ _, hab⟩
    · obtain ⟨x, hx, hxy⟩ := ih hmem
      exact ⟨x, List.mem_cons_of_mem _ hx, hxy⟩

/-- The loop of `convertRulesSnakes` started from the accumulator `acc`: when it
ends without panic, its result is `acc` followed by the conversions of the
players of `snakes` that are not eliminated, one for one and in order. -/
theorem convertRulesSnakes_loop_ok (snakes : List rules.Snake) (acc out : List client.Snake)
    (h : snakes.foldlM
      (fun a snake =>
        if snake.EliminatedCause = rules.NotEliminated then
          (convertRulesSnake snake).map (fun c => a ++ [c])
        else
          .ok a) acc = Except.ok out) :
    ∃ cs, out = acc ++ cs ∧
      List.Forall₂ (fun s c => convertRulesSnake s = Except.ok c)
        (snakes.filter (fun s => decide (s.EliminatedCause = rules.NotEliminated))) cs := by
  induction snakes generalizing acc with
  | nil =>
    refine ⟨[], ?_, by simp⟩
    simp only [List.foldlM_nil] at h
    cases h
    simp
  | cons s rest ih =>
    rw [List.foldlM_cons] at h
    by_cases hs : s.EliminatedCause = rules.NotEliminated
    · rw [if_pos hs] at h
      cases hc : convertRulesSnake s with
      | error e =>
        rw [hc] at h
        cases h
      | ok c =>
        rw [hc] at h
        obtain ⟨cs, hout, hcs⟩ := ih (acc ++ [c]) h
        refine ⟨c :: cs, by simp [hout], ?_⟩
        rw [List.filter_cons_of_pos (by simpa using hs)]
        exact List.Forall₂.cons hc hcs
    · rw [if_neg hs] at h
      obtain ⟨cs, hout, hcs⟩ := ih acc h
      refine ⟨cs, hout, ?_⟩
      rw [List.filter_cons_of_neg (by simpa using hs)]
      exact hcs

/-- When it ends without panic, `convertRulesSnakes` returns the conversions of
the players that are not eliminated, one for one and in order. -/
theorem convertRulesSnakes_ok (snakes : List rules.Snake) (out : List client.Snake)
    (h : convertRulesSnakes snakes = Except.ok out) :
    List.Forall₂ (fun s c => convertRulesSnake s = Except.ok c)
      (snakes.filter (fun s => decide (s.EliminatedCause = rules.NotEliminated))) out := by
  obtain ⟨cs, hout, hcs⟩ := convertRulesSnakes_loop_ok snakes [] out h
  simpa [hout] using hcs

/-- A result of `convertStateToBoard` has the dimensions, food and hazards of
the state, and its players are a result of `convertRulesSnakes`. -/
theorem convertStateToBoard_ok (st : rules.BoardState) (b : client.Board)
    (h : convertStateToBoard st = Except.ok b) :
    convertRulesSnakes st.Snakes = Except.ok b.Snakes ∧
      b.Height = st.Height ∧ b.Width = st.Width ∧
      b.Food = client.CoordFromPointArray st.Food ∧
      b.Hazards = client.CoordFromPointArray st.Hazards := by
  unfold convertStateToBoard at h
  cases hs : convertRulesSnakes st.Snakes with
  | error e =>
    rw [hs] at h
    cases h
  | ok snakes =>
    rw [hs] at h
    simp only [Except.map] at h
    cases h
    simp

/-- The latency text of `convertRulesSnake`: `fmt.Sprint(0)` is `"0"`. -/
theorem fmtSprint_zero : fmtSprint 0 = "0" := by decide

/-- What `convertRulesSnake` returns, field by field. -/
theorem convertRulesSnake_ok (s : rules.Snake) (c : client.Snake)
    (h : convertRulesSnake s = Except.ok c) :
    c.ID = s.ID ∧ c.Health = s.Health ∧ c.Body = client.CoordFromPointArray s.Body ∧
      c.Name = "fuzzer" ∧ c.Latency = "0" ∧ c.Shout = "" ∧ c.Customizations = {} ∧
      s.Body.head?.map client.CoordFromPoint = some c.Head ∧
      c.Length = (s.Body.length : Int) := by
  unfold convertRulesSnake at h
  cases hb : s.Body with
  | nil =>
    rw [hb] at h
    cases h
  | cons p ps =>
    rw [hb] at h
    simp only [List.getElem?_cons_zero] at h
    cases h
    exact ⟨rfl, rfl, rfl, rfl, fmtSprint_zero, rfl, rfl, rfl, rfl⟩

/-- `convertRulesSnake` does not panic on a player with a non-empty body. -/
theorem convertRulesSnake_total (s : rules.Snake) (h : s.Body ≠ []) :
    ∃ c, convertRulesSnake s = Except.ok c := by
  unfold convertRulesSnake
  cases hb : s.Body with
  | nil => exact absurd hb h
  | cons p ps =>
    simp only [List.getElem?_cons_zero]
    exact ⟨_, rfl⟩

/-- The loop of `convertRulesSnakes` does not panic when every player that is
not eliminated has a non-empty body. -/
theorem convertRulesSnakes_loop_total (snakes : List rules.Snake) (acc : List client.Snake)
    (h : ∀ s ∈ snakes, s.EliminatedCause = rules.NotEliminated → s.Body ≠ []) :
    ∃ out, snakes.foldlM
      (fun a snake =>
        if snake.EliminatedCause = rules.NotEliminated then
          (convertRulesSnake snake).map (fun c => a ++ [c])
        else
          .ok a) acc = Except.ok out := by
  induction snakes generalizing acc with
  | nil => exact ⟨acc, rfl⟩
  | cons s rest ih =>
    have hrest : ∀ t ∈ rest, t.EliminatedCause = rules.NotEliminated → t.Body ≠ [] :=
      fun t ht => h t (List.mem_cons_of_mem _ ht)
    rw [List.foldlM_cons]
    by_cases hs : s.EliminatedCause = rules.NotEliminated
    · obtain ⟨c, hc⟩ := convertRulesSnake_total s (h s (List.mem_cons_self _ _) hs)
      rw [if_pos hs, hc]
      exact ih (acc ++ [c]) hrest
    · rw [if_neg hs]
      exact ih acc hrest

/-- `convertStateToBoard` does not panic when every player that is not
eliminated has a non-empty body. -/
theorem convertStateToBoard_total (st : rules.BoardState)
    (h : ∀ s ∈ st.Snakes, s.EliminatedCause = rules.NotEliminated → s.Body ≠ []) :
    ∃ b, convertStateToBoard st = Except.ok b := by
  obtain ⟨out, hout⟩ := convertRulesSnakes_loop_total st.Snakes [] h
  unfold convertStateToBoard
  unfold convertRulesSnakes
  rw [hout]
  exact ⟨_, rfl⟩

/-- Every player made by `convertSnake` is in play. -/
theorem convertSnake_notEliminated (c : client.Snake) :
    (convertSnake c).EliminatedCause = rules.NotEliminated := rfl

/-- The fields of a decoded board. -/
theorem convertBoardToState_fields (b : client.Board) :
    (convertBoardToState b).Width = b.Width ∧ (convertBoardToState b).Height = b.Height ∧
      (convertBoardToState b).Food = convertCoordsToPoints b.Food ∧
      (convertBoardToState b).Hazards = convertCoordsToPoints b.Hazards ∧
      (convertBoardToState b).Snakes = b.Snakes.map convertSnake ∧
      (convertBoardToState b).Turn = 0 :=
  ⟨rfl, rfl, rfl, rfl, convertSnakes_eq_map b.Snakes, rfl⟩

/-- Decoding keeps a body non-empty. -/
theorem convertSnake_body_ne_nil (c : client.Snake) (h : c.Body ≠ []) :
    (convertSnake c).Body ≠ [] := by
  show convertCoordsToPoints c.Body ≠ []
  rw [convertCoordsToPoints_eq_map]
  simpa using h

/-- Filtering the players in play out of decoded players keeps them all. -/
theorem filter_notEliminated_convertSnake (cs : List client.Snake) :
    (cs.map convertSnake).filter (fun s => decide (s.EliminatedCause = rules.NotEliminated)) =
      cs.map convertSnake := by
  rw [List.filter_eq_self]
  intro s hs
  obtain ⟨c, _, rfl⟩ := List.mem_map.mp hs
  simp [convertSnake_notEliminated]

/-! ## Elimination filtering -/

/-- C1. Every player of the wire board that `convertStateToBoard` produces is the
conversion of a player of the input state whose `EliminatedCause` is
`NotEliminated`: no eliminated player appears in the output. -/
theorem encode_players_not_eliminated (st : rules.BoardState) (b : client.Board)
    (h : convertStateToBoard st = Except.ok b) :
    ∀ c ∈ b.Snakes, ∃ s ∈ st.Snakes,
      s.EliminatedCause = rules.NotEliminated ∧ convertRulesSnake s = Except.ok c := by
  intro c hc
  have hall := convertRulesSnakes_ok st.Snakes b.Snakes (convertStateToBoard_ok st b h).1
  obtain ⟨s, hs, hsc⟩ := forall₂_exists_left hall hc
  rw [List.mem_filter] at hs
  exact ⟨s, hs.1, by simpa using hs.2, hsc⟩

/-- C1, at a state with an eliminated player. -/
theorem encode_players_not_eliminated_witness :
    convertStateToBoard stateWithEliminated = Except.ok boardWithoutEliminated ∧
      ∀ c ∈ boardWithoutEliminated.Snakes, ∃ s ∈ stateWithEliminated.Snakes,
        s.EliminatedCause = rules.NotEliminated ∧ convertRulesSnake s = Except.ok c :=
  ⟨by decide,
    encode_players_not_eliminated stateWithEliminated boardWithoutEliminated (by decide)⟩

/-! ## Round trip -/

/-- C2 as stated fails: on a wire board with a player whose body list is empty,
`convertStateToBoard (convertBoardToState b)` panics on `snake.Body[0]`, so no
board is reproduced. -/
theorem roundtrip_panics_on_empty_body :
    convertStateToBoard (convertBoardToState boardWithEmptyBody)
        = Except.error Panic.indexOutOfRange ∧
      ¬ ∃ b, convertStateToBoard (convertBoardToState boardWithEmptyBody) = Except.ok b ∧
          b.Width = boardWithEmptyBody.Width ∧ b.Height = boardWithEmptyBody.Height := by
  have h : convertStateToBoard (convertBoardToState boardWithEmptyBody)
      = Except.error Panic.indexOutOfRange := by decide
  refine ⟨h, ?_⟩
  rintro ⟨b, hb, -⟩
  rw [h] at hb
  cases hb

/-- C2, amended. For every wire board whose players all have a non-empty body,
`convertStateToBoard (convertBoardToState b)` returns a board with the width and
height of `b`, the food and hazard lists of `b` (equal as lists, hence as sets),
and players that match those of `b` one for one and in order on id, health and body. -/
theorem roundtrip_encode_decode (b : client.Board) (hbody : ∀ c ∈ b.Snakes, c.Body ≠ []) :
    ∃ b', convertStateToBoard (convertBoardToState b) = Except.ok b' ∧
      b'.Width = b.Width ∧ b'.Height = b.Height ∧
      b'.Food = b.Food ∧ (∀ p, p ∈ b'.Food ↔ p ∈ b.Food) ∧
      b'.Hazards = b.Hazards ∧ (∀ p, p ∈ b'.Hazards ↔ p ∈ b.Hazards) ∧
      List.Forall₂ (fun c' c => c'.ID = c.ID ∧ c'.Health = c.Health ∧ c'.Body = c.Body)
        b'.Snakes b.Snakes := by
  obtain ⟨hw, hh, hfood, hhaz, hsn, -⟩ := convertBoardToState_fields b
  have htotal : ∃ b', convertStateToBoard (convertBoardToState b) = Except.ok b' := by
    apply convertStateToBoard_total
    intro s hs _
    rw [hsn] at hs
    obtain ⟨c, hc, rfl⟩ := List.mem_map.mp hs
    exact convertSnake_body_ne_nil c (hbody c hc)
  obtain ⟨b', hb'⟩ := htotal
  obtain ⟨hsnakes, hh', hw', hfood', hhaz'⟩ := convertStateToBoard_ok _ b' hb'
  have hF : b'.Food = b.Food := by
    rw [hfood', hfood, coordFromPointArray_convertCoordsToPoints]
  have hH : b'.Hazards = b.Hazards := by
    rw [hhaz', hhaz, coordFromPointArray_convertCoordsToPoints]
  refine ⟨b', hb', by rw [hw', hw], by rw [hh', hh], hF, by simp [hF], hH, by simp [hH], ?_⟩
  have hall := convertRulesSnakes_ok _ _ hsnakes
  rw [hsn, filter_notEliminated_convertSnake, List.forall₂_map_left_iff] at hall
  refine (List.Forall₂.flip hall).imp ?_
  intro c' c hc
  obtain ⟨hid, hhealth, hbd, -⟩ := convertRulesSnake_ok _ _ hc
  refine ⟨hid, hhealth, ?_⟩
  rw [hbd]
  exact coordFromPointArray_convertCoordsToPoints c.Body

/-- C2 amended, at the encoding of `stateWithEliminated` read as a wire board. -/
theorem roundtrip_encode_decode_witness :
    (∀ c ∈ boardWithoutEliminated.Snakes, c.Body ≠ []) ∧
    ∃ b', convertStateToBoard (convertBoardToState boardWithoutEliminated) = Except.ok b' ∧
      b'.Width = boardWithoutEliminated.Width ∧ b'.Height = boardWithoutEliminated.Height ∧
      b'.Food = boardWithoutEliminated.Food ∧ (∀ p, p ∈ b'.Food ↔ p ∈ boardWithoutEliminated.Food) ∧
      b'.Hazards = boardWithoutEliminated.Hazards ∧
      (∀ p, p ∈ b'.Hazards ↔ p ∈ boardWithoutEliminated.Hazards) ∧
      List.Forall₂ (fun c' c => c'.ID = c.ID ∧ c'.Health = c.Health ∧ c'.Body = c.Body)
        b'.Snakes boardWithoutEliminated.Snakes :=
  ⟨by decide, roundtrip_encode_decode boardWithoutEliminated (by decide)⟩

/-! ## The paths of `createNextBoardState` -/

section Paths

variable {μ σ : Type} (env : Providers μ σ) (boardState : Option rules.BoardState)
  (moves : List rules.SnakeMove)

/-- Map resolution fails. -/
theorem run_of_getMap_error (err : GoError) (hmap : env.GetMap "standard" = Except.error err) :
    createNextBoardState env boardState moves =
      { calls := [Call.GetMap]
        result := Except.ok (none,
          some (GoError.errorString
            (loadMapContext ++ fmtSharpV "standard" ++ ": " ++ err.Error))) } := by
  simp only [createNextBoardState, hmap]

/-- The pre-update hook fails. -/
theorem run_of_preUpdate_error (gameMap : μ) (s1 : Option rules.BoardState) (err : GoError)
    (hmap : env.GetMap "standard" = Except.ok gameMap)
    (hpre : env.PreUpdateBoard gameMap boardState (env.NamedRuleset "standard").Settings
      = (s1, some err)) :
    createNextBoardState env boardState moves =
      { calls := [Call.GetMap, Call.PreUpdateBoard]
        result := Except.ok (s1, some (errorfW preUpdateContext err)) } := by
  simp only [createNextBoardState, hmap, hpre]

/-- The pre-update hook succeeds and the ruleset fails. -/
theorem run_of_execute_error (gameMap : μ) (s1 s2 : Option rules.BoardState) (flag : Bool)
    (err : GoError)
    (hmap : env.GetMap "standard" = Except.ok gameMap)
    (hpre : env.PreUpdateBoard gameMap boardState (env.NamedRuleset "standard").Settings
      = (s1, none))
    (hexec : (env.NamedRuleset "standard").Execute s1 moves = (flag, s2, some err)) :
    createNextBoardState env boardState moves =
      { calls := [Call.GetMap, Call.PreUpdateBoard, Call.Execute]
        result := Except.ok (s2, some (errorfW executeContext err)) } := by
  simp only [createNextBoardState, hmap, hpre, hexec]

/-- The pre-update hook and the ruleset succeed and the post-update hook fails. -/
theorem run_of_postUpdate_error (gameMap : μ) (s1 s2 s3 : Option rules.BoardState)
    (flag : Bool) (err : GoError)
    (hmap : env.GetMap "standard" = Except.ok gameMap)
    (hpre : env.PreUpdateBoard gameMap boardState (env.NamedRuleset "standard").Settings
      = (s1, none))
    (hexec : (env.NamedRuleset "standard").Execute s1 moves = (flag, s2, none))
    (hpost : env.PostUpdateBoard gameMap s2 (env.NamedRuleset "standard").Settings
      = (s3, some err)) :
    createNextBoardState env boardState moves =
      { calls := [Call.GetMap, Call.PreUpdateBoard, Call.Execute, Call.PostUpdateBoard]
        result := Except.ok (s3, some (errorfW postUpdateContext err)) } := by
  simp only [createNextBoardState, hmap, hpre, hexec, hpost]

/-- All three hooks report success and the post-update hook returns a nil pointer. -/
theorem run_of_postUpdate_nil (gameMap : μ) (s1 s2 : Option rules.BoardState) (flag : Bool)
    (hmap : env.GetMap "standard" = Except.ok gameMap)
    (hpre : env.PreUpdateBoard gameMap boardState (env.NamedRuleset "standard").Settings
      = (s1, none))
    (hexec : (env.NamedRuleset "standard").Execute s1 moves = (flag, s2, none))
    (hpost : env.PostUpdateBoard gameMap s2 (env.NamedRuleset "standard").Settings
      = (none, none)) :
    createNextBoardState env boardState moves =
      { calls := [Call.GetMap, Call.PreUpdateBoard, Call.Execute, Call.PostUpdateBoard]
        result := Except.error Panic.nilDereference } := by
  simp only [createNextBoardState, hmap, hpre, hexec, hpost]

/-- All three hooks succeed. -/
theorem run_of_success (gameMap : μ) (s1 s2 : Option rules.BoardState) (flag : Bool)
    (s3 : rules.BoardState)
    (hmap : env.GetMap "standard" = Except.ok gameMap)
    (hpre : env.PreUpdateBoard gameMap boardState (env.NamedRuleset "standard").Settings
      = (s1, none))
    (hexec : (env.NamedRuleset "standard").Execute s1 moves = (flag, s2, none))
    (hpost : env.PostUpdateBoard gameMap s2 (env.NamedRuleset "standard").Settings
      = (some s3, none)) :
    createNextBoardState env boardState moves =
      { calls := [Call.GetMap, Call.PreUpdateBoard, Call.Execute, Call.PostUpdateBoard]
        result := Except.ok (some { s3 with Turn := wrapInt64 (s3.Turn + 1) }, none) } := by
  simp only [createNextBoardState, hmap, hpre, hexec, hpost]

/-- A run that returns no error went through all three hooks, each of which
succeeded, and returns the state of the post-update hook with its turn
counter incremented. -/
theorem success_inv (p : Option rules.BoardState)
    (h : (createNextBoardState env boardState moves).result = Except.ok (p, none)) :
    ∃ gameMap s1 flag s2 s3,
      env.GetMap "standard" = Except.ok gameMap ∧
      env.PreUpdateBoard gameMap boardState (env.NamedRuleset "standard").Settings
        = (s1, none) ∧
      (env.NamedRuleset "standard").Execute s1 moves = (flag, s2, none) ∧
      env.PostUpdateBoard gameMap s2 (env.NamedRuleset "standard").Settings
        = (some s3, none) ∧
      p = some { s3 with Turn := wrapInt64 (s3.Turn + 1) } := by
  cases hmap : env.GetMap "standard" with
  | error err =>
    rw [run_of_getMap_error env boardState moves err hmap] at h
    simp at h
  | ok gameMap =>
    rcases hpre : env.PreUpdateBoard gameMap boardState (env.NamedRuleset "standard").Settings
      with ⟨s1, _ | err⟩
    · rcases hexec : (env.NamedRuleset "standard").Execute s1 moves with ⟨flag, s2, _ | err⟩
      · rcases hpost : env.PostUpdateBoard gameMap s2 (env.NamedRuleset "standard").Settings
          with ⟨_ | s3, _ | err⟩
        · rw [run_of_postUpdate_nil env boardState moves gameMap s1 s2 flag hmap hpre hexec
            hpost] at h
          simp at h
        · rw [run_of_postUpdate_error env boardState moves gameMap s1 s2 none flag err hmap hpre
            hexec hpost] at h
          simp at h
        · rw [run_of_success env boardState moves gameMap s1 s2 flag s3 hmap hpre hexec
            hpost] at h
          simp only [Except.ok.injEq, Prod.mk.injEq, and_true] at h
          exact ⟨gameMap, s1, flag, s2, s3, rfl, hpre, hexec, hpost, h.symm⟩
        · rw [run_of_postUpdate_error env boardState moves gameMap s1 s2 (some s3) flag err hmap
            hpre hexec hpost] at h
          simp at h
      · rw [run_of_execute_error env boardState moves gameMap s1 s2 flag err hmap hpre
          hexec] at h
        simp at h
    · rw [run_of_preUpdate_error env boardState moves gameMap s1 err hmap hpre] at h
      simp at h

end Paths

/-- The bounds within which `wrapInt64` leaves a sum unchanged. -/
theorem wrapInt64_of_range (n : Int) (hlo : -2 ^ 63 ≤ n) (hhi : n < 2 ^ 63) :
    wrapInt64 n = n := by
  unfold wrapInt64
  rw [Int.emod_eq_of_lt (by omega) (by omega)]
  omega

/-! ## Turn counter -/

/-- C3 as stated fails. With collaborators that change nothing, a state whose
turn counter is the largest 64-bit `int` is advanced without error to a state
whose turn counter is the smallest one, not the input's plus 1; and with a
ruleset that resets the turn counter, the returned counter is 1 whatever the
input's. -/
theorem turn_plus_one_fails :
    (∃ r, (createNextBoardState noopProviders (some stateAtMaxTurn) []).result
        = Except.ok (some r, none) ∧ r.Turn ≠ stateAtMaxTurn.Turn + 1) ∧
    (∃ r, (createNextBoardState turnResettingProviders (some stateWithEliminated) []).result
        = Except.ok (some r, none) ∧ r.Turn ≠ stateWithEliminated.Turn + 1) :=
  ⟨⟨{ stateAtMaxTurn with Turn := -2 ^ 63 }, by decide, by decide⟩,
    ⟨{ stateWithEliminated with Turn := 1 }, by decide, by decide⟩⟩

/-- C3, amended. Let the three hooks, whenever they succeed, return a state
with the turn counter of their argument. If `createNextBoardState` returns no
error on the state `st`, it returns a state whose turn counter is that of `st`
plus 1 in 64-bit arithmetic, which is exactly `st.Turn + 1` when `st.Turn` is a
64-bit `int` below the largest one. -/
theorem turn_incremented_on_success {μ σ : Type} (env : Providers μ σ)
    (st : rules.BoardState) (moves : List rules.SnakeMove) (p : Option rules.BoardState)
    (hpre : ∀ m cfg a b, env.PreUpdateBoard m a cfg = (b, none) →
      b.map (fun s => s.Turn) = a.map (fun s => s.Turn))
    (hexec : ∀ name mv a flag b, (env.NamedRuleset name).Execute a mv = (flag, b, none) →
      b.map (fun s => s.Turn) = a.map (fun s => s.Turn))
    (hpost : ∀ m cfg a b, env.PostUpdateBoard m a cfg = (b, none) →
      b.map (fun s => s.Turn) = a.map (fun s => s.Turn))
    (hret : (createNextBoardState env (some st) moves).result = Except.ok (p, none)) :
    ∃ r, p = some r ∧ r.Turn = wrapInt64 (st.Turn + 1) ∧
      (-2 ^ 63 ≤ st.Turn → st.Turn < 2 ^ 63 - 1 → r.Turn = st.Turn + 1) := by
  obtain ⟨gameMap, s1, flag, s2, s3, -, h1, h2, h3, rfl⟩ := success_inv env (some st) moves p hret
  have e1 := hpre _ _ _ _ h1
  have e2 := hexec _ _ _ _ _ h2
  have e3 := hpost _ _ _ _ h3
  rw [e2, e1] at e3
  have hturn : s3.Turn = st.Turn := by simpa using e3
  refine ⟨_, rfl, ?_, ?_⟩
  · show wrapInt64 (s3.Turn + 1) = wrapInt64 (st.Turn + 1)
    rw [hturn]
  · intro hlo hhi
    show wrapInt64 (s3.Turn + 1) = st.Turn + 1
    rw [hturn]
    exact wrapInt64_of_range _ (by omega) (by omega)

/-- C3 amended, at `stateWithEliminated` (turn 3) and collaborators that change nothing. -/
theorem turn_incremented_on_success_witness :
    (createNextBoardState noopProviders (some stateWithEliminated) []).result
        = Except.ok (some { stateWithEliminated with Turn := 4 }, none) ∧
      ∃ r, some { stateWithEliminated with Turn := 4 } = some r ∧
        r.Turn = wrapInt64 (stateWithEliminated.Turn + 1) ∧
        (-2 ^ 63 ≤ stateWithEliminated.Turn → stateWithEliminated.Turn < 2 ^ 63 - 1 →
          r.Turn = stateWithEliminated.Turn + 1) :=
  ⟨by decide,
    turn_incremented_on_success noopProviders stateWithEliminated []
      (some { stateWithEliminated with Turn := 4 })
      (by intro m cfg a b h; cases h; rfl)
      (by intro name mv a flag b h; cases h; rfl)
      (by intro m cfg a b h; cases h; rfl)
      (by decide)⟩

/-! ## Fail-fast ordering -/

/-- C4. When the map resolves: if the pre-update hook fails, the calls made are
`GetMap` and `PreUpdateBoard` only (neither `Execute` nor `PostUpdateBoard`), and
the run is the same for all collaborators with the same map registry, the same
pre-update hook and the same ruleset settings; if the pre-update hook succeeds
and `Execute` fails, `PostUpdateBoard` is not called, and the run is the same
whatever the post-update hook. -/
theorem fail_fast {μ σ : Type} (env : Providers μ σ) (boardState : Option rules.BoardState)
    (moves : List rules.SnakeMove) (gameMap : μ)
    (hmap : env.GetMap "standard" = Except.ok gameMap) :
    (∀ s1 err,
      env.PreUpdateBoard gameMap boardState (env.NamedRuleset "standard").Settings
        = (s1, some err) →
      (createNextBoardState env boardState moves).calls = [Call.GetMap, Call.PreUpdateBoard] ∧
      Call.Execute ∉ (createNextBoardState env boardState moves).calls ∧
      Call.PostUpdateBoard ∉ (createNextBoardState env boardState moves).calls ∧
      ∀ env2 : Providers μ σ, env2.GetMap = env.GetMap →
        env2.PreUpdateBoard = env.PreUpdateBoard →
        (env2.NamedRuleset "standard").Settings = (env.NamedRuleset "standard").Settings →
        createNextBoardState env2 boardState moves = createNextBoardState env boardState moves) ∧
    (∀ s1 flag s2 err,
      env.PreUpdateBoard gameMap boardState (env.NamedRuleset "standard").Settings
        = (s1, none) →
      (env.NamedRuleset "standard").Execute s1 moves = (flag, s2, some err) →
      (createNextBoardState env boardState moves).calls
        = [Call.GetMap, Call.PreUpdateBoard, Call.Execute] ∧
      Call.PostUpdateBoard ∉ (createNextBoardState env boardState moves).calls ∧
      ∀ env2 : Providers μ σ, env2.GetMap = env.GetMap →
        env2.PreUpdateBoard = env.PreUpdateBoard →
        env2.NamedRuleset = env.NamedRuleset →
        createNextBoardState env2 boardState moves = createNextBoardState env boardState moves) := by
  constructor
  · intro s1 err hpre
    have hrun := run_of_preUpdate_error env boardState moves gameMap s1 err hmap hpre
    refine ⟨by rw [hrun], by rw [hrun]; simp, by rw [hrun]; simp, ?_⟩
    intro env2 h1 h2 h3
    rw [hrun]
    apply run_of_preUpdate_error env2 boardState moves gameMap s1 err
    · rw [h1, hmap]
    · rw [h2, h3, hpre]
  · intro s1 flag s2 err hpre hexec
    have hrun := run_of_execute_error env boardState moves gameMap s1 s2 flag err hmap hpre hexec
    refine ⟨by rw [hrun], by rw [hrun]; simp, ?_⟩
    intro env2 h1 h2 h3
    rw [hrun]
    apply run_of_execute_error env2 boardState moves gameMap s1 s2 flag err
    · rw [h1, hmap]
    · rw [h2, h3, hpre]
    · rw [h3, hexec]

/-- C4, at a failing pre-update hook (compared with the same collaborators and
a failing ruleset) and at a failing ruleset (compared with the same collaborators
and a failing post-update hook). -/
theorem fail_fast_witness :
    (createNextBoardState preFailingProviders (some stateWithEliminated) []).calls
        = [Call.GetMap, Call.PreUpdateBoard] ∧
      createNextBoardState
          { preFailingProviders with NamedRuleset := executeFailingProviders.NamedRuleset }
          (some stateWithEliminated) []
        = createNextBoardState preFailingProviders (some stateWithEliminated) [] ∧
      (createNextBoardState executeFailingProviders (some stateWithEliminated) []).calls
        = [Call.GetMap, Call.PreUpdateBoard, Call.Execute] ∧
      createNextBoardState
          { executeFailingProviders with PostUpdateBoard := postFailingProviders.PostUpdateBoard }
          (some stateWithEliminated) []
        = createNextBoardState executeFailingProviders (some stateWithEliminated) [] :=
  have hpre := (fail_fast preFailingProviders (some stateWithEliminated) [] () rfl).1
    none stubError rfl
  have hexec := (fail_fast executeFailingProviders (some stateWithEliminated) [] () rfl).2
    (some stateWithEliminated) false (some { stateWithEliminated with Food := [] }) stubError
    rfl rfl
  ⟨hpre.1, hpre.2.2.2 _ rfl rfl rfl, hexec.1, hexec.2.2 _ rfl rfl rfl⟩

/-! ## Success path -/

/-- C5 as stated fails. With collaborators that change nothing, the map
resolves and the three hooks succeed on a state whose turn counter is the
largest 64-bit `int`, the post-update hook returning that very state; the state
returned with the nil error has the smallest 64-bit `int` as its turn counter,
not the turn counter of the post-update hook's state plus 1. Every other field
is unchanged. -/
theorem success_path_turn_wraps :
    noopProviders.GetMap "standard" = Except.ok () ∧
    noopProviders.PreUpdateBoard () (some stateAtMaxTurn)
        (noopProviders.NamedRuleset "standard").Settings = (some stateAtMaxTurn, none) ∧
    (noopProviders.NamedRuleset "standard").Execute (some stateAtMaxTurn) [⟨"a", "up"⟩]
      = (false, some stateAtMaxTurn, none) ∧
    noopProviders.PostUpdateBoard () (some stateAtMaxTurn)
        (noopProviders.NamedRuleset "standard").Settings = (some stateAtMaxTurn, none) ∧
    (createNextBoardState noopProviders (some stateAtMaxTurn) [⟨"a", "up"⟩]).result
      = Except.ok (some { stateAtMaxTurn with Turn := -2 ^ 63 }, none) ∧
    (-2 ^ 63 : Int) ≠ stateAtMaxTurn.Turn + 1 ∧
    ¬ ∃ r, (createNextBoardState noopProviders (some stateAtMaxTurn) [⟨"a", "up"⟩]).result
        = Except.ok (some r, none) ∧ r.Turn = stateAtMaxTurn.Turn + 1 := by
  have h : (createNextBoardState noopProviders (some stateAtMaxTurn) [⟨"a", "up"⟩]).result
      = Except.ok (some { stateAtMaxTurn with Turn := -2 ^ 63 }, none) := by decide
  refine ⟨rfl, rfl, rfl, rfl, h, by decide, ?_⟩
  rintro ⟨r, hr, hturn⟩
  rw [h] at hr
  simp only [Except.ok.injEq, Prod.mk.injEq, Option.some.injEq, and_true] at hr
  rw [← hr] at hturn
  revert hturn
  decide

/-- C5, amended. When the map resolves, the pre-update hook returns no error on
the input state, `Execute` returns no error on the pointer returned by the
pre-update hook and the given moves, and the post-update hook returns a state
(not a nil pointer) and no error on the pointer returned by `Execute` (both map
hooks receiving the resolved map and the settings of the ruleset),
`createNextBoardState` makes exactly these calls in this order and returns a nil
error with the state of the post-update hook in which the turn counter is
incremented by 1 in 64-bit arithmetic, which is exactly `Turn + 1` when the
turn counter of that state is a 64-bit `int` below the largest one, and every
other field is unchanged. -/
theorem success_path {μ σ : Type} (env : Providers μ σ) (boardState : Option rules.BoardState)
    (moves : List rules.SnakeMove) (gameMap : μ) (s1 s2 : Option rules.BoardState)
    (flag : Bool) (s3 : rules.BoardState)
    (hmap : env.GetMap "standard" = Except.ok gameMap)
    (hpre : env.PreUpdateBoard gameMap boardState (env.NamedRuleset "standard").Settings
      = (s1, none))
    (hexec : (env.NamedRuleset "standard").Execute s1 moves = (flag, s2, none))
    (hpost : env.PostUpdateBoard gameMap s2 (env.NamedRuleset "standard").Settings
      = (some s3, none)) :
    (createNextBoardState env boardState moves).calls
      = [Call.GetMap, Call.PreUpdateBoard, Call.Execute, Call.PostUpdateBoard] ∧
    ∃ r, (createNextBoardState env boardState moves).result = Except.ok (some r, none) ∧
      r = { s3 with Turn := wrapInt64 (s3.Turn + 1) } ∧
      (-2 ^ 63 ≤ s3.Turn → s3.Turn < 2 ^ 63 - 1 → r.Turn = s3.Turn + 1) ∧
      r.Height = s3.Height ∧ r.Width = s3.Width ∧ r.Food = s3.Food ∧
      r.Hazards = s3.Hazards ∧ r.Snakes = s3.Snakes := by
  rw [run_of_success env boardState moves gameMap s1 s2 flag s3 hmap hpre hexec hpost]
  refine ⟨rfl, _, rfl, rfl, ?_, rfl, rfl, rfl, rfl, rfl⟩
  intro hlo hhi
  exact wrapInt64_of_range _ (by omega) (by omega)

/-- C5 amended, at the board of the specification: 11x11, one food point, no hazards,
one player with body (5,5), (5,4) and health 100 that moves up, a map that
changes nothing and a ruleset that moves the head and takes 1 from the health.
The returned player has head (5,6) and health 99, and the turn went from 7 to 8. -/
theorem success_path_witness :
    (createNextBoardState minimalProviders (some onePlayerState) [⟨"a", "up"⟩]).calls
      = [Call.GetMap, Call.PreUpdateBoard, Call.Execute, Call.PostUpdateBoard] ∧
    ∃ r, (createNextBoardState minimalProviders (some onePlayerState) [⟨"a", "up"⟩]).result
        = Except.ok (some r, none) ∧
      r = { onePlayerMovedUp with Turn := wrapInt64 (onePlayerMovedUp.Turn + 1) } ∧
      r.Turn = 8 ∧
      r.Snakes = [{ ID := "a", Body := [⟨5, 6⟩, ⟨5, 5⟩], Health := 99 }] :=
  have h := success_path minimalProviders (some onePlayerState) [⟨"a", "up"⟩] ()
    (some onePlayerState) (some onePlayerMovedUp) false onePlayerMovedUp
    (by decide) (by decide) (by decide) (by decide)
  ⟨h.1, h.2.elim fun r hr =>
    ⟨r, hr.1, hr.2.1, hr.2.2.1 (by decide) (by decide), hr.2.2.2.2.2.2.2⟩⟩

/-- The first `n` characters of a text that starts with `c` are those of `c`,
when `c` has at least `n` characters. -/
theorem data_take_append (c a : String) (n : Nat) (h : n ≤ c.length) :
    (c ++ a).data.take n = c.data.take n := by
  rw [String.data_append, List.take_append_of_le_length h]

/-- A pre-update message is never an execute message. -/
theorem preUpdate_ne_execute (a b : String) : preUpdateContext ++ a ≠ executeContext ++ b := by
  intro h
  have h1 := data_take_append preUpdateContext a 7 (by decide)
  have h2 := data_take_append executeContext b 7 (by decide)
  rw [h, h2] at h1
  revert h1
  decide

/-- A pre-update message is never a post-update message. -/
theorem preUpdate_ne_postUpdate (a b : String) :
    preUpdateContext ++ a ≠ postUpdateContext ++ b := by
  intro h
  have h1 := data_take_append preUpdateContext a 8 (by decide)
  have h2 := data_take_append postUpdateContext b 8 (by decide)
  rw [h, h2] at h1
  revert h1
  decide

/-- An execute message is never a post-update message. -/
theorem execute_ne_postUpdate (a b : String) :
    executeContext ++ a ≠ postUpdateContext ++ b := by
  intro h
  have h1 := data_take_append executeContext a 7 (by decide)
  have h2 := data_take_append postUpdateContext b 7 (by decide)
  rw [h, h2] at h1
  revert h1
  decide

/-! ## Failure of a phase -/

/-- C6 as stated fails. When the pre-update hook fails, the state returned is
the one the hook returned, not the input state: a hook that fails with a nil
pointer makes `createNextBoardState` return nil, and a hook that fails after
replacing the hazards makes it return the state with the replaced hazards. -/
theorem preUpdate_failure_not_input_state :
    (createNextBoardState preFailingProviders (some stateWithEliminated) []).result
        = Except.ok (none, some (errorfW preUpdateContext stubError)) ∧
    (createNextBoardState preMutatingProviders (some stateWithEliminated) []).result
        = Except.ok (some { stateWithEliminated with Hazards := [⟨0, 0⟩] },
            some (errorfW preUpdateContext stubError)) ∧
    (¬ ∃ e, (createNextBoardState preFailingProviders (some stateWithEliminated) []).result
        = Except.ok (some stateWithEliminated, e)) ∧
    (¬ ∃ e, (createNextBoardState preMutatingProviders (some stateWithEliminated) []).result
        = Except.ok (some stateWithEliminated, e)) := by
  have h1 : (createNextBoardState preFailingProviders (some stateWithEliminated) []).result
      = Except.ok (none, some (errorfW preUpdateContext stubError)) := by decide
  have h2 : (createNextBoardState preMutatingProviders (some stateWithEliminated) []).result
      = Except.ok (some { stateWithEliminated with Hazards := [⟨0, 0⟩] },
          some (errorfW preUpdateContext stubError)) := by decide
  refine ⟨h1, h2, ?_, ?_⟩
  · rintro ⟨e, he⟩
    rw [h1] at he
    simp at he
  · rintro ⟨e, he⟩
    rw [h2] at he
    simp only [Except.ok.injEq, Prod.mk.injEq, Option.some.injEq] at he
    exact absurd he.1 (by decide)

/-- C6, amended. If the map resolves and the pre-update hook fails,
`createNextBoardState` returns the state pointer that the hook returned with
its error, and an error whose text is the pre-update context followed by the
text of the hook's error and which wraps the hook's error. -/
theorem preUpdate_failure {μ σ : Type} (env : Providers μ σ)
    (boardState : Option rules.BoardState) (moves : List rules.SnakeMove) (gameMap : μ)
    (s1 : Option rules.BoardState) (err : GoError)
    (hmap : env.GetMap "standard" = Except.ok gameMap)
    (hpre : env.PreUpdateBoard gameMap boardState (env.NamedRuleset "standard").Settings
      = (s1, some err)) :
    ∃ e, (createNextBoardState env boardState moves).result = Except.ok (s1, some e) ∧
      e.Error = "Error pre-updating board with game map: " ++ err.Error ∧
      e.Unwrap = some err := by
  rw [run_of_preUpdate_error env boardState moves gameMap s1 err hmap hpre]
  exact ⟨_, rfl, rfl, rfl⟩

/-- C6 amended, at a pre-update hook that replaces the hazards and fails. -/
theorem preUpdate_failure_witness :
    ∃ e, (createNextBoardState preMutatingProviders (some stateWithEliminated) []).result
        = Except.ok (some { stateWithEliminated with Hazards := [⟨0, 0⟩] }, some e) ∧
      e.Error = "Error pre-updating board with game map: " ++ stubError.Error ∧
      e.Unwrap = some stubError :=
  preUpdate_failure preMutatingProviders (some stateWithEliminated) [] ()
    (some { stateWithEliminated with Hazards := [⟨0, 0⟩] }) stubError rfl rfl

/-- C7. After a successful pre-update: if `Execute` fails, the state returned by
`Execute` is returned as it is, with an error that wraps the error of `Execute`
behind the execute context; if `Execute` succeeds and the post-update hook
fails, the state returned by the post-update hook is returned as it is, with an
error that wraps the hook's error behind the post-update context. The texts of
errors of two different phases never coincide. -/
theorem later_phase_failure {μ σ : Type} (env : Providers μ σ)
    (boardState : Option rules.BoardState) (moves : List rules.SnakeMove) (gameMap : μ)
    (s1 : Option rules.BoardState)
    (hmap : env.GetMap "standard" = Except.ok gameMap)
    (hpre : env.PreUpdateBoard gameMap boardState (env.NamedRuleset "standard").Settings
      = (s1, none)) :
    (∀ flag s2 err, (env.NamedRuleset "standard").Execute s1 moves = (flag, s2, some err) →
      ∃ e, (createNextBoardState env boardState moves).result = Except.ok (s2, some e) ∧
        e.Error = "Error updating board state from ruleset: " ++ err.Error ∧
        e.Unwrap = some err) ∧
    (∀ flag s2 s3 err, (env.NamedRuleset "standard").Execute s1 moves = (flag, s2, none) →
      env.PostUpdateBoard gameMap s2 (env.NamedRuleset "standard").Settings = (s3, some err) →
      ∃ e, (createNextBoardState env boardState moves).result = Except.ok (s3, some e) ∧
        e.Error = "Error post-updating board with game map: " ++ err.Error ∧
        e.Unwrap = some err) ∧
    (preUpdateContext ≠ executeContext ∧ preUpdateContext ≠ postUpdateContext ∧
      executeContext ≠ postUpdateContext) ∧
    (∀ e1 e2 : GoError,
      (errorfW preUpdateContext e1).Error ≠ (errorfW executeContext e2).Error ∧
      (errorfW preUpdateContext e1).Error ≠ (errorfW postUpdateContext e2).Error ∧
      (errorfW executeContext e1).Error ≠ (errorfW postUpdateContext e2).Error) := by
  refine ⟨?_, ?_, ⟨by decide, by decide, by decide⟩, ?_⟩
  · intro flag s2 err hexec
    rw [run_of_execute_error env boardState moves gameMap s1 s2 flag err hmap hpre hexec]
    exact ⟨_, rfl, rfl, rfl⟩
  · intro flag s2 s3 err hexec hpost
    rw [run_of_postUpdate_error env boardState moves gameMap s1 s2 s3 flag err hmap hpre hexec
      hpost]
    exact ⟨_, rfl, rfl, rfl⟩
  · intro e1 e2
    exact ⟨preUpdate_ne_execute _ _, preUpdate_ne_postUpdate _ _, execute_ne_postUpdate _ _⟩

/-- C7, at a ruleset that empties the food and fails, and at a post-update hook
that empties the hazards and fails: the emptied state comes back, turn 3 as in
the input. -/
theorem later_phase_failure_witness :
    (∃ e, (createNextBoardState executeFailingProviders (some stateWithEliminated) []).result
        = Except.ok (some { stateWithEliminated with Food := [] }, some e) ∧
      e.Error = "Error updating board state from ruleset: " ++ stubError.Error ∧
      e.Unwrap = some stubError) ∧
    (∃ e, (createNextBoardState postFailingProviders (some stateWithEliminated) []).result
        = Except.ok (some { stateWithEliminated with Hazards := [] }, some e) ∧
      e.Error = "Error post-updating board with game map: " ++ stubError.Error ∧
      e.Unwrap = some stubError) :=
  ⟨(later_phase_failure executeFailingProviders (some stateWithEliminated) [] ()
      (some stateWithEliminated) rfl rfl).1
      false (some { stateWithEliminated with Food := [] }) stubError rfl,
    (later_phase_failure postFailingProviders (some stateWithEliminated) [] ()
      (some stateWithEliminated) rfl rfl).2.1
      false (some stateWithEliminated) (some { stateWithEliminated with Hazards := [] })
      stubError rfl rfl⟩

/-- C8 as stated fails. When the map does not resolve, the state returned is
nil: the caller receives an error and no board state. -/
theorem state_nil_on_map_failure :
    (createNextBoardState unknownMapProviders (some stateWithEliminated) []).result
        = Except.ok (none,
            some (.errorString "Failed to load game map \"standard\": map not found")) ∧
    ¬ ∃ st e, (createNextBoardState unknownMapProviders (some stateWithEliminated) []).result
        = Except.ok (some st, e) := by
  have h : (createNextBoardState unknownMapProviders (some stateWithEliminated) []).result
      = Except.ok (none,
          some (.errorString "Failed to load game map \"standard\": map not found")) := by
    decide
  refine ⟨h, ?_⟩
  rintro ⟨st, e, he⟩
  rw [h] at he
  simp at he

/-- C8, amended. Every run of `createNextBoardState` is one of six: the map does
not resolve, and a nil state is returned with an error; the pre-update hook,
`Execute` or the post-update hook is the first to fail, and the state pointer
returned by that collaborator is returned with an error that wraps its error;
all three succeed, and the state returned by the post-update hook is returned
with its turn counter incremented and a nil error; or all three report success
but the post-update hook returned a nil pointer, and `Turn += 1` panics. -/
theorem every_path_returns_latest_state {μ σ : Type} (env : Providers μ σ)
    (boardState : Option rules.BoardState) (moves : List rules.SnakeMove) :
    (∃ err, env.GetMap "standard" = Except.error err ∧
      ∃ e, (createNextBoardState env boardState moves).result = Except.ok (none, some e)) ∨
    (∃ gameMap s1 err, env.GetMap "standard" = Except.ok gameMap ∧
      env.PreUpdateBoard gameMap boardState (env.NamedRuleset "standard").Settings
        = (s1, some err) ∧
      (createNextBoardState env boardState moves).result
        = Except.ok (s1, some (errorfW preUpdateContext err))) ∨
    (∃ gameMap s1 flag s2 err, env.GetMap "standard" = Except.ok gameMap ∧
      env.PreUpdateBoard gameMap boardState (env.NamedRuleset "standard").Settings
        = (s1, none) ∧
      (env.NamedRuleset "standard").Execute s1 moves = (flag, s2, some err) ∧
      (createNextBoardState env boardState moves).result
        = Except.ok (s2, some (errorfW executeContext err))) ∨
    (∃ gameMap s1 flag s2 s3 err, env.GetMap "standard" = Except.ok gameMap ∧
      env.PreUpdateBoard gameMap boardState (env.NamedRuleset "standard").Settings
        = (s1, none) ∧
      (env.NamedRuleset "standard").Execute s1 moves = (flag, s2, none) ∧
      env.PostUpdateBoard gameMap s2 (env.NamedRuleset "standard").Settings
        = (s3, some err) ∧
      (createNextBoardState env boardState moves).result
        = Except.ok (s3, some (errorfW postUpdateContext err))) ∨
    (∃ gameMap s1 flag s2 s3, env.GetMap "standard" = Except.ok gameMap ∧
      env.PreUpdateBoard gameMap boardState (env.NamedRuleset "standard").Settings
        = (s1, none) ∧
      (env.NamedRuleset "standard").Execute s1 moves = (flag, s2, none) ∧
      env.PostUpdateBoard gameMap s2 (env.NamedRuleset "standard").Settings
        = (some s3, none) ∧
      (createNextBoardState env boardState moves).result
        = Except.ok (some { s3 with Turn := wrapInt64 (s3.Turn + 1) }, none)) ∨
    (∃ gameMap s1 flag s2, env.GetMap "standard" = Except.ok gameMap ∧
      env.PreUpdateBoard gameMap boardState (env.NamedRuleset "standard").Settings
        = (s1, none) ∧
      (env.NamedRuleset "standard").Execute s1 moves = (flag, s2, none) ∧
      env.PostUpdateBoard gameMap s2 (env.NamedRuleset "standard").Settings
        = (none, none) ∧
      (createNextBoardState env boardState moves).result
        = Except.error Panic.nilDereference) := by
  cases hmap : env.GetMap "standard" with
  | error err =>
    left
    refine ⟨err, rfl, ?_⟩
    rw [run_of_getMap_error env boardState moves err hmap]
    exact ⟨_, rfl⟩
  | ok gameMap =>
    right
    rcases hpre : env.PreUpdateBoard gameMap boardState (env.NamedRuleset "standard").Settings
      with ⟨s1, _ | err⟩
    · right
      rcases hexec : (env.NamedRuleset "standard").Execute s1 moves with ⟨flag, s2, _ | err⟩
      · right
        rcases hpost : env.PostUpdateBoard gameMap s2 (env.NamedRuleset "standard").Settings
          with ⟨_ | s3, _ | err⟩
        · right; right
          exact ⟨gameMap, s1, flag, s2, rfl, hpre, hexec, hpost, by
            rw [run_of_postUpdate_nil env boardState moves gameMap s1 s2 flag hmap hpre hexec
              hpost]⟩
        · left
          exact ⟨gameMap, s1, flag, s2, none, err, rfl, hpre, hexec, hpost, by
            rw [run_of_postUpdate_error env boardState moves gameMap s1 s2 none flag err hmap
              hpre hexec hpost]⟩
        · right; left
          exact ⟨gameMap, s1, flag, s2, s3, rfl, hpre, hexec, hpost, by
            rw [run_of_success env boardState moves gameMap s1 s2 flag s3 hmap hpre hexec
              hpost]⟩
        · left
          exact ⟨gameMap, s1, flag, s2, some s3, err, rfl, hpre, hexec, hpost, by
            rw [run_of_postUpdate_error env boardState moves gameMap s1 s2 (some s3) flag err
              hmap hpre hexec hpost]⟩
      · left
        exact ⟨gameMap, s1, flag, s2, err, rfl, hpre, hexec, by
          rw [run_of_execute_error env boardState moves gameMap s1 s2 flag err hmap hpre hexec]⟩
    · left
      exact ⟨gameMap, s1, err, rfl, hpre, by
        rw [run_of_preUpdate_error env boardState moves gameMap s1 err hmap hpre]⟩

/-! ## Map resolution -/

/-- C9. If the map name does not resolve, `createNextBoardState` calls no hook
(`GetMap` is its only call, and the run is the same for all collaborators with
the same map registry) and returns an error whose text is
`Failed to load game map "standard": ` followed by the text of the resolver's
error, so that it contains both `Failed to load game map` and that text. -/
theorem map_resolution_failure {μ σ : Type} (env : Providers μ σ)
    (boardState : Option rules.BoardState) (moves : List rules.SnakeMove) (err : GoError)
    (hmap : env.GetMap "standard" = Except.error err) :
    (createNextBoardState env boardState moves).calls = [Call.GetMap] ∧
    Call.PreUpdateBoard ∉ (createNextBoardState env boardState moves).calls ∧
    Call.Execute ∉ (createNextBoardState env boardState moves).calls ∧
    Call.PostUpdateBoard ∉ (createNextBoardState env boardState moves).calls ∧
    (∀ env2 : Providers μ σ, env2.GetMap = env.GetMap →
      createNextBoardState env2 boardState moves = createNextBoardState env boardState moves) ∧
    ∃ e, (createNextBoardState env boardState moves).result = Except.ok (none, some e) ∧
      e.Error = "Failed to load game map \"standard\": " ++ err.Error ∧
      (∃ before after : String, e.Error = before ++ "Failed to load game map" ++ after) ∧
      (∃ before : String, e.Error = before ++ err.Error) := by
  have hrun := run_of_getMap_error env boardState moves err hmap
  have htext : loadMapContext ++ fmtSharpV "standard" ++ ": " ++ err.Error
      = "Failed to load game map \"standard\": " ++ err.Error := by
    apply String.ext
    simp [loadMapContext, fmtSharpV, String.data_append]
  refine ⟨by rw [hrun], by rw [hrun]; simp, by rw [hrun]; simp, by rw [hrun]; simp, ?_, ?_⟩
  · intro env2 h2
    rw [hrun]
    exact run_of_getMap_error env2 boardState moves err (by rw [h2, hmap])
  · rw [hrun]
    refine ⟨_, rfl, htext, ?_, ?_⟩
    · refine ⟨"", " \"standard\": " ++ err.Error, ?_⟩
      show loadMapContext ++ fmtSharpV "standard" ++ ": " ++ err.Error = _
      apply String.ext
      simp [loadMapContext, fmtSharpV, String.data_append]
    · exact ⟨"Failed to load game map \"standard\": ", htext⟩

/-- C9, at a map registry that knows no map and reports `map not found`. -/
theorem map_resolution_failure_witness :
    (createNextBoardState unknownMapProviders (some stateWithEliminated) []).calls
        = [Call.GetMap] ∧
    ∃ e, (createNextBoardState unknownMapProviders (some stateWithEliminated) []).result
        = Except.ok (none, some e) ∧
      e.Error = "Failed to load game map \"standard\": " ++ "map not found" :=
  have h := map_resolution_failure unknownMapProviders (some stateWithEliminated) []
    (.errorString "map not found") rfl
  ⟨h.1, h.2.2.2.2.2.elim fun e he => ⟨e, he.1, he.2.1⟩⟩

/-! ## Presentation fields -/

/-- C10. For every board state whose players in play all have a non-empty body,
`convertStateToBoard` returns a board, and every player of that board has name
`fuzzer`, latency `0`, an empty shout, empty customizations, a head equal to
the first element of its body and a length equal to the number of elements of
its body; it comes from a player in play of the state, of which it has the id,
the health and the body (point by point), the head being that player's first
body point and the length that player's number of body points. -/
theorem encode_player_fields (st : rules.BoardState)
    (hbody : ∀ s ∈ st.Snakes, s.EliminatedCause = rules.NotEliminated → s.Body ≠ []) :
    ∃ b, convertStateToBoard st = Except.ok b ∧
      ∀ c ∈ b.Snakes,
        c.Name = "fuzzer" ∧ c.Latency = "0" ∧ c.Shout = "" ∧
        c.Customizations = { Color := "", Head := "", Tail := "" } ∧
        c.Body.head? = some c.Head ∧ c.Length = (c.Body.length : Int) ∧
        ∃ s ∈ st.Snakes, s.EliminatedCause = rules.NotEliminated ∧
          c.ID = s.ID ∧ c.Health = s.Health ∧
          c.Body = s.Body.map client.CoordFromPoint ∧
          s.Body.head?.map client.CoordFromPoint = some c.Head ∧
          c.Length = (s.Body.length : Int) := by
  obtain ⟨b, hb⟩ := convertStateToBoard_total st hbody
  refine ⟨b, hb, ?_⟩
  intro c hc
  have hall := convertRulesSnakes_ok st.Snakes b.Snakes (convertStateToBoard_ok st b hb).1
  obtain ⟨s, hs, hsc⟩ := forall₂_exists_left hall hc
  rw [List.mem_filter] at hs
  obtain ⟨hid, hhealth, hbd, hname, hlat, hshout, hcust, hhead, hlen⟩ :=
    convertRulesSnake_ok s c hsc
  rw [coordFromPointArray_eq_map] at hbd
  refine ⟨hname, hlat, hshout, hcust, ?_, ?_, s, hs.1, by simpa using hs.2, hid, hhealth, hbd,
    hhead, hlen⟩
  · rw [hbd, List.head?_map]
    exact hhead
  · rw [hlen, hbd, List.length_map]

/-- C10, at `stateWithEliminated`, whose two players in play have bodies of
two points and of one point. -/
theorem encode_player_fields_witness :
    (∀ s ∈ stateWithEliminated.Snakes,
      s.EliminatedCause = rules.NotEliminated → s.Body ≠ []) ∧
    ∃ b, convertStateToBoard stateWithEliminated = Except.ok b ∧
      ∀ c ∈ b.Snakes,
        c.Name = "fuzzer" ∧ c.Latency = "0" ∧ c.Shout = "" ∧
        c.Customizations = { Color := "", Head := "", Tail := "" } ∧
        c.Body.head? = some c.Head ∧ c.Length = (c.Body.length : Int) ∧
        ∃ s ∈ stateWithEliminated.Snakes, s.EliminatedCause = rules.NotEliminated ∧
          c.ID = s.ID ∧ c.Health = s.Health ∧
          c.Body = s.Body.map client.CoordFromPoint ∧
          s.Body.head?.map client.CoordFromPoint = some c.Head ∧
          c.Length = (s.Body.length : Int) :=
  ⟨by decide, encode_player_fields stateWithEliminated (by decide)⟩

/-! ## Decode -/

/-- C11. For every wire board, `convertBoardToState` yields a state with the
same width and height, whose food and hazards are the coordinate lists of the
board converted element by element (same length, same order, same x and y), and
whose players are the players of the board converted one by one in the same
order, each with the same id, the same health and the same body sequence. -/
theorem decode_elementwise (b : client.Board) :
    (convertBoardToState b).Width = b.Width ∧ (convertBoardToState b).Height = b.Height ∧
    (convertBoardToState b).Food.length = b.Food.length ∧
    List.Forall₂ (fun (p : rules.Point) (c : client.Coord) => p.X = c.X ∧ p.Y = c.Y)
      (convertBoardToState b).Food b.Food ∧
    (convertBoardToState b).Hazards.length = b.Hazards.length ∧
    List.Forall₂ (fun (p : rules.Point) (c : client.Coord) => p.X = c.X ∧ p.Y = c.Y)
      (convertBoardToState b).Hazards b.Hazards ∧
    (convertBoardToState b).Snakes.length = b.Snakes.length ∧
    List.Forall₂
      (fun (s : rules.Snake) (c : client.Snake) =>
        s.ID = c.ID ∧ s.Health = c.Health ∧ s.Body.length = c.Body.length ∧
        List.Forall₂ (fun (p : rules.Point) (q : client.Coord) => p.X = q.X ∧ p.Y = q.Y)
          s.Body c.Body)
      (convertBoardToState b).Snakes b.Snakes := by
  have hpts : ∀ cs : List client.Coord,
      List.Forall₂ (fun (p : rules.Point) (c : client.Coord) => p.X = c.X ∧ p.Y = c.Y)
        (convertCoordsToPoints cs) cs := by
    intro cs
    rw [convertCoordsToPoints_eq_map, List.forall₂_map_left_iff]
    exact List.forall₂_same.mpr (fun _ _ => ⟨rfl, rfl⟩)
  obtain ⟨hw, hh, hfood, hhaz, hsn, -⟩ := convertBoardToState_fields b
  have hsnakes : List.Forall₂
      (fun (s : rules.Snake) (c : client.Snake) =>
        s.ID = c.ID ∧ s.Health = c.Health ∧ s.Body.length = c.Body.length ∧
        List.Forall₂ (fun (p : rules.Point) (q : client.Coord) => p.X = q.X ∧ p.Y = q.Y)
          s.Body c.Body)
      (convertBoardToState b).Snakes b.Snakes := by
    rw [hsn, List.forall₂_map_left_iff]
    exact List.forall₂_same.mpr (fun c _ => ⟨rfl, rfl, (hpts c.Body).length_eq, hpts c.Body⟩)
  refine ⟨hw, hh, ?_, ?_, ?_, ?_, hsnakes.length_eq, hsnakes⟩
  · rw [hfood]
    exact (hpts b.Food).length_eq
  · rw [hfood]
    exact hpts b.Food
  · rw [hhaz]
    exact (hpts b.Hazards).length_eq
  · rw [hhaz]
    exact hpts b.Hazards

/-- C12. Two wire boards with the same width, height, food and hazards, whose
players agree one by one on id, health and body, decode to the same state,
whatever the names, latencies, shouts, customizations, heads and lengths of
their players. -/
theorem decode_ignores_presentation (b1 b2 : client.Board)
    (hw : b1.Width = b2.Width) (hh : b1.Height = b2.Height)
    (hfood : b1.Food = b2.Food) (hhaz : b1.Hazards = b2.Hazards)
    (hsnakes : List.Forall₂
      (fun (c1 c2 : client.Snake) => c1.ID = c2.ID ∧ c1.Health = c2.Health ∧ c1.Body = c2.Body)
      b1.Snakes b2.Snakes) :
    convertBoardToState b1 = convertBoardToState b2 := by
  have hgen : ∀ xs ys : List client.Snake,
      List.Forall₂
        (fun (c1 c2 : client.Snake) => c1.ID = c2.ID ∧ c1.Health = c2.Health ∧ c1.Body = c2.Body)
        xs ys →
      xs.map convertSnake = ys.map convertSnake := by
    intro xs ys h
    induction h with
    | nil => rfl
    | cons hab _ ih =>
      obtain ⟨hid, hhealth, hbody⟩ := hab
      simp only [List.map_cons, ih, convertSnake, hid, hhealth, hbody]
  have hmap := hgen b1.Snakes b2.Snakes hsnakes
  unfold convertBoardToState
  rw [convertSnakes_eq_map, convertSnakes_eq_map, hmap, hw, hh, hfood, hhaz]

/-- C12, at two boards that differ in every presentation field of every player. -/
theorem decode_ignores_presentation_witness :
    boardDressed ≠ boardPlain ∧ convertBoardToState boardDressed = convertBoardToState boardPlain :=
  ⟨by decide,
    decode_ignores_presentation boardDressed boardPlain rfl rfl rfl rfl
      (List.Forall₂.cons ⟨rfl, rfl, rfl⟩ (List.Forall₂.cons ⟨rfl, rfl, rfl⟩ List.Forall₂.nil))⟩

/-- C13. `convertBoardToState` has no error condition: it returns a state for
every wire board, with as many food points, hazards and players as the board has,
each player with as many body points as the wire player has. An empty coordinate
list decodes to the empty point sequence, a board without food, hazards and
players to a state without any, and a player with an empty body list to a
player with an empty body. -/
theorem decode_total :
    (∀ b : client.Board, ∃ st : rules.BoardState, convertBoardToState b = st ∧
      st.Food.length = b.Food.length ∧ st.Hazards.length = b.Hazards.length ∧
      st.Snakes.length = b.Snakes.length ∧
      List.Forall₂ (fun (s : rules.Snake) (c : client.Snake) => s.Body.length = c.Body.length)
        st.Snakes b.Snakes) ∧
    convertCoordsToPoints [] = [] ∧
    convertSnakes [] = [] ∧
    (∀ c : client.Snake, c.Body = [] → (convertSnake c).Body = []) ∧
    convertBoardToState emptyBoard
      = { Turn := 0, Height := 11, Width := 11, Food := [], Snakes := [], Hazards := [] } ∧
    convertBoardToState bodilessBoard
      = { Turn := 0, Height := 11, Width := 11, Food := [], Hazards := []
          Snakes := [{ ID := "a", Body := [], Health := 100, EliminatedCause := "" }] } := by
  refine ⟨?_, rfl, rfl, ?_, by decide, by decide⟩
  · intro b
    obtain ⟨-, -, hfood, hhaz, hsn, -⟩ := convertBoardToState_fields b
    refine ⟨_, rfl, ?_, ?_, ?_, ?_⟩
    · rw [hfood, convertCoordsToPoints_eq_map, List.length_map]
    · rw [hhaz, convertCoordsToPoints_eq_map, List.length_map]
    · rw [hsn, List.length_map]
    · rw [hsn, List.forall₂_map_left_iff]
      refine List.forall₂_same.mpr (fun c _ => ?_)
      show (convertCoordsToPoints c.Body).length = c.Body.length
      rw [convertCoordsToPoints_eq_map, List.length_map]
  · intro c hc
    show convertCoordsToPoints c.Body = []
    rw [hc]
    rfl

/-! ## Encode -/

/-- C14. When every player of the state that is not eliminated has a non-empty
body, `convertStateToBoard` does not panic: it returns a board, and the access
`snake.Body[0]` is in range for every player that is converted, whatever the
bodies of the eliminated players. -/
theorem encode_never_fails (st : rules.BoardState)
    (hbody : ∀ s ∈ st.Snakes, s.EliminatedCause = rules.NotEliminated → s.Body ≠ []) :
    (∃ b, convertStateToBoard st = Except.ok b) ∧
    (∀ p, convertStateToBoard st ≠ Except.error p) ∧
    (∀ s ∈ st.Snakes, s.EliminatedCause = rules.NotEliminated →
      (∃ head, s.Body[0]? = some head) ∧ ∃ c, convertRulesSnake s = Except.ok c) := by
  obtain ⟨b, hb⟩ := convertStateToBoard_total st hbody
  refine ⟨⟨b, hb⟩, ?_, ?_⟩
  · intro p hp
    rw [hb] at hp
    cases hp
  · intro s hs halive
    have hne := hbody s hs halive
    refine ⟨?_, convertRulesSnake_total s hne⟩
    cases hsb : s.Body with
    | nil => exact absurd hsb hne
    | cons head rest => exact ⟨head, by simp⟩

/-- C14, at a state whose eliminated player has an empty body. -/
theorem encode_never_fails_witness :
    (∃ s ∈ stateWithEmptyEliminated.Snakes, s.Body = []) ∧
    (∃ b, convertStateToBoard stateWithEmptyEliminated = Except.ok b) ∧
    (∀ p, convertStateToBoard stateWithEmptyEliminated ≠ Except.error p) ∧
    (∀ s ∈ stateWithEmptyEliminated.Snakes, s.EliminatedCause = rules.NotEliminated →
      (∃ head, s.Body[0]? = some head) ∧ ∃ c, convertRulesSnake s = Except.ok c) :=
  ⟨by decide, encode_never_fails stateWithEmptyEliminated (by decide)⟩

/-- The loop of `convertRulesSnakes` panics with an index out of range when a
player that is not eliminated has an empty body. -/
theorem convertRulesSnakes_loop_panics (snakes : List rules.Snake) (acc : List client.Snake)
    (h : ∃ s ∈ snakes, s.EliminatedCause = rules.NotEliminated ∧ s.Body = []) :
    snakes.foldlM
      (fun a snake =>
        if snake.EliminatedCause = rules.NotEliminated then
          (convertRulesSnake snake).map (fun c => a ++ [c])
        else
          .ok a) acc = Except.error Panic.indexOutOfRange := by
  induction snakes generalizing acc with
  | nil =>
    obtain ⟨s, hs, -⟩ := h
    cases hs
  | cons t rest ih =>
    obtain ⟨s, hs, halive, hempty⟩ := h
    rw [List.foldlM_cons]
    by_cases ht : t.EliminatedCause = rules.NotEliminated
    · rw [if_pos ht]
      cases hb : t.Body with
      | nil =>
        have hpanic : convertRulesSnake t = Except.error Panic.indexOutOfRange := by
          unfold convertRulesSnake
          rw [hb]
          rfl
        rw [hpanic]
        rfl
      | cons q qs =>
        obtain ⟨c, hc⟩ := convertRulesSnake_total t (by rw [hb]; simp)
        rw [hc]
        have hrest : s ∈ rest := by
          rcases List.mem_cons.mp hs with rfl | hmem
          · rw [hb] at hempty
            cases hempty
          · exact hmem
        exact ih (acc ++ [c]) ⟨s, hrest, halive, hempty⟩
    · rw [if_neg ht]
      have hrest : s ∈ rest := by
        rcases List.mem_cons.mp hs with rfl | hmem
        · exact absurd halive ht
        · exact hmem
      exact ih acc ⟨s, hrest, halive, hempty⟩

/-- `convertStateToBoard` panics with an index out of range when a player of the
state that is not eliminated has an empty body. -/
theorem convertStateToBoard_panics (st : rules.BoardState)
    (h : ∃ s ∈ st.Snakes, s.EliminatedCause = rules.NotEliminated ∧ s.Body = []) :
    convertStateToBoard st = Except.error Panic.indexOutOfRange := by
  unfold convertStateToBoard convertRulesSnakes
  rw [convertRulesSnakes_loop_panics st.Snakes [] h]
  rfl

/-! ## The paths of `hello` -/

section HelloPaths

variable {μ σ : Type} (env : Providers μ σ) (codec : Codec) (bodyString : String)

/-- The body does not parse. -/
theorem hello_of_parse_error (json_err : GoError)
    (hparse : codec.Unmarshal bodyString = Except.error json_err) :
    hello env codec (Except.ok bodyString) =
      { stdout := ["Request received " ++ bodyString], calls := []
        outcome := Outcome.response 400 (json_err.Error ++ "\n") } := by
  simp only [hello, hparse, httpError, StatusBadRequest]

/-- The body parses and the advancer returns an error. -/
theorem hello_of_simulate_error (req : SimulateRequest) (p : Option rules.BoardState)
    (simulateErr : GoError)
    (hparse : codec.Unmarshal bodyString = Except.ok req)
    (hrun : (createNextBoardState env (some (convertBoardToState req.Game.Board))
      req.Moves).result = Except.ok (p, some simulateErr)) :
    hello env codec (Except.ok bodyString) =
      { stdout := ["Request received " ++ bodyString]
        calls := (createNextBoardState env (some (convertBoardToState req.Game.Board))
          req.Moves).calls
        outcome := Outcome.response 400 (simulateErr.Error ++ "\n") } := by
  simp only [hello, hparse, hrun, httpError, StatusBadRequest]

/-- The body parses, the advancer returns a state and no error, and the state
is encoded. -/
theorem hello_of_encoded (req : SimulateRequest) (newState : rules.BoardState)
    (newBoard : client.Board)
    (hparse : codec.Unmarshal bodyString = Except.ok req)
    (hrun : (createNextBoardState env (some (convertBoardToState req.Game.Board))
      req.Moves).result = Except.ok (some newState, none))
    (henc : convertStateToBoard newState = Except.ok newBoard) :
    hello env codec (Except.ok bodyString) =
      { stdout := ["Request received " ++ bodyString]
        calls := (createNextBoardState env (some (convertBoardToState req.Game.Board))
          req.Moves).calls
        outcome := Outcome.response 200 (codec.Marshal newBoard ++ "\n") } := by
  simp only [hello, hparse, hrun, henc, StatusOK]

/-- The body parses, the advancer returns a state and no error, and the
encoding of the state panics. -/
theorem hello_of_encode_panic (req : SimulateRequest) (newState : rules.BoardState)
    (pn : Panic)
    (hparse : codec.Unmarshal bodyString = Except.ok req)
    (hrun : (createNextBoardState env (some (convertBoardToState req.Game.Board))
      req.Moves).result = Except.ok (some newState, none))
    (henc : convertStateToBoard newState = Except.error pn) :
    hello env codec (Except.ok bodyString) =
      { stdout := ["Request received " ++ bodyString]
        calls := (createNextBoardState env (some (convertBoardToState req.Game.Board))
          req.Moves).calls
        outcome := Outcome.panic pn } := by
  simp only [hello, hparse, hrun, henc]

end HelloPaths

/-! ## Request handler -/

/-- C15 as stated fails. The request about a board whose player has an empty
body parses, and the advancer (with collaborators that change nothing) returns a
state and no error; yet the handler writes no response with status 200: it
panics in `convertStateToBoard` on `snake.Body[0]`. -/
theorem hello_no_response_on_empty_body :
    stubCodec.Unmarshal "bodiless" = Except.ok bodilessRequest ∧
    (createNextBoardState noopProviders
        (some (convertBoardToState bodilessRequest.Game.Board)) bodilessRequest.Moves).result
      = Except.ok (some { convertBoardToState bodilessBoard with Turn := 1 }, none) ∧
    (hello noopProviders stubCodec (Except.ok "bodiless")).outcome
      = Outcome.panic Panic.indexOutOfRange ∧
    ¬ ∃ body, (hello noopProviders stubCodec (Except.ok "bodiless")).outcome
      = Outcome.response 200 body := by
  have h : (hello noopProviders stubCodec (Except.ok "bodiless")).outcome
      = Outcome.panic Panic.indexOutOfRange := by decide
  refine ⟨by decide, by decide, h, ?_⟩
  rintro ⟨body, hbody⟩
  rw [h] at hbody
  cases hbody

/-- C15, amended. For a request body that was read: if it does not parse, the
response is status 400 with the text of the parse error, the advancer makes no
call, and the handling is the same whatever the collaborators; if it parses and
`createNextBoardState` on the decoded board and the moves of the request returns
an error, the response is status 400 with the text of that error; if it parses,
`createNextBoardState` returns a state and no error, and every player in play of
that state has a non-empty body, the response is status 200 with the
serialisation of `convertStateToBoard` of that state. Each text is followed by a
newline. -/
theorem hello_responses {μ σ : Type} (env : Providers μ σ) (codec : Codec)
    (bodyString : String) :
    (∀ json_err, codec.Unmarshal bodyString = Except.error json_err →
      (hello env codec (Except.ok bodyString)).outcome
        = Outcome.response 400 (json_err.Error ++ "\n") ∧
      (hello env codec (Except.ok bodyString)).calls = [] ∧
      ∀ env2 : Providers μ σ,
        hello env2 codec (Except.ok bodyString) = hello env codec (Except.ok bodyString)) ∧
    (∀ req p simulateErr, codec.Unmarshal bodyString = Except.ok req →
      (createNextBoardState env (some (convertBoardToState req.Game.Board)) req.Moves).result
        = Except.ok (p, some simulateErr) →
      (hello env codec (Except.ok bodyString)).outcome
        = Outcome.response 400 (simulateErr.Error ++ "\n")) ∧
    (∀ req newState, codec.Unmarshal bodyString = Except.ok req →
      (createNextBoardState env (some (convertBoardToState req.Game.Board)) req.Moves).result
        = Except.ok (some newState, none) →
      (∀ s ∈ newState.Snakes, s.EliminatedCause = rules.NotEliminated → s.Body ≠ []) →
      ∃ newBoard, convertStateToBoard newState = Except.ok newBoard ∧
        (hello env codec (Except.ok bodyString)).outcome
          = Outcome.response 200 (codec.Marshal newBoard ++ "\n")) := by
  refine ⟨?_, ?_, ?_⟩
  · intro json_err hparse
    have h := hello_of_parse_error env codec bodyString json_err hparse
    refine ⟨by rw [h], by rw [h], ?_⟩
    intro env2
    rw [h]
    exact hello_of_parse_error env2 codec bodyString json_err hparse
  · intro req p simulateErr hparse hrun
    rw [hello_of_simulate_error env codec bodyString req p simulateErr hparse hrun]
  · intro req newState hparse hrun hbody
    obtain ⟨newBoard, henc⟩ := convertStateToBoard_total newState hbody
    refine ⟨newBoard, henc, ?_⟩
    rw [hello_of_encoded env codec bodyString req newState newBoard hparse hrun henc]

/-- C15 amended, at a text that does not parse, at a request whose map does not
resolve, and at a request that is advanced and encoded. -/
theorem hello_responses_witness :
    (hello noopProviders stubCodec (Except.ok "")).outcome
      = Outcome.response 400 "unexpected end of JSON input\n" ∧
    (hello noopProviders stubCodec (Except.ok "")).calls = [] ∧
    (hello unknownMapProviders stubCodec (Except.ok "dressed")).outcome
      = Outcome.response 400 ("Failed to load game map \"standard\": map not found" ++ "\n") ∧
    ∃ newBoard,
      convertStateToBoard { convertBoardToState boardDressed with Turn := 1 }
        = Except.ok newBoard ∧
      (hello noopProviders stubCodec (Except.ok "dressed")).outcome
        = Outcome.response 200 (stubCodec.Marshal newBoard ++ "\n") :=
  have h1 := (hello_responses noopProviders stubCodec "").1
    (.errorString "unexpected end of JSON input") (by decide)
  have h2 := (hello_responses unknownMapProviders stubCodec "dressed").2.1 dressedRequest none
    (.errorString "Failed to load game map \"standard\": map not found")
    (by decide) (by decide)
  have h3 := (hello_responses noopProviders stubCodec "dressed").2.2 dressedRequest
    { convertBoardToState boardDressed with Turn := 1 } (by decide) (by decide) (by decide)
  ⟨h1.1, h1.2.1, h2, h3⟩

/-! ## Error propagation -/

/-- C16. `createNextBoardState` returns a nil error exactly when the map
resolves and the pre-update hook, `Execute` and the post-update hook each
return no error (the last one with a state), and then the state returned is the
post-update hook's with the turn counter incremented. When the map does not
resolve or one of the three returns an error, the error returned is not nil
(it carries the text of the failure, and wraps a hook's error), and the state
pointer returned with it is nil for the map and otherwise the failing
collaborator's own pointer, without turn increment. -/
theorem nil_error_iff_all_succeed {μ σ : Type} (env : Providers μ σ)
    (boardState : Option rules.BoardState) (moves : List rules.SnakeMove) :
    (∀ p, (createNextBoardState env boardState moves).result = Except.ok (p, none) ↔
      ∃ gameMap s1 flag s2 s3,
        env.GetMap "standard" = Except.ok gameMap ∧
        env.PreUpdateBoard gameMap boardState (env.NamedRuleset "standard").Settings
          = (s1, none) ∧
        (env.NamedRuleset "standard").Execute s1 moves = (flag, s2, none) ∧
        env.PostUpdateBoard gameMap s2 (env.NamedRuleset "standard").Settings
          = (some s3, none) ∧
        p = some { s3 with Turn := wrapInt64 (s3.Turn + 1) }) ∧
    (∀ err, env.GetMap "standard" = Except.error err →
      ∃ e, (createNextBoardState env boardState moves).result = Except.ok (none, some e) ∧
        e.Error = loadMapContext ++ fmtSharpV "standard" ++ ": " ++ err.Error) ∧
    (∀ gameMap s1 err, env.GetMap "standard" = Except.ok gameMap →
      env.PreUpdateBoard gameMap boardState (env.NamedRuleset "standard").Settings
        = (s1, some err) →
      ∃ e, (createNextBoardState env boardState moves).result = Except.ok (s1, some e) ∧
        e.Unwrap = some err) ∧
    (∀ gameMap s1 flag s2 err, env.GetMap "standard" = Except.ok gameMap →
      env.PreUpdateBoard gameMap boardState (env.NamedRuleset "standard").Settings
        = (s1, none) →
      (env.NamedRuleset "standard").Execute s1 moves = (flag, s2, some err) →
      ∃ e, (createNextBoardState env boardState moves).result = Except.ok (s2, some e) ∧
        e.Unwrap = some err) ∧
    (∀ gameMap s1 flag s2 s3 err, env.GetMap "standard" = Except.ok gameMap →
      env.PreUpdateBoard gameMap boardState (env.NamedRuleset "standard").Settings
        = (s1, none) →
      (env.NamedRuleset "standard").Execute s1 moves = (flag, s2, none) →
      env.PostUpdateBoard gameMap s2 (env.NamedRuleset "standard").Settings
        = (s3, some err) →
      ∃ e, (createNextBoardState env boardState moves).result = Except.ok (s3, some e) ∧
        e.Unwrap = some err) := by
  refine ⟨?_, ?_, ?_, ?_, ?_⟩
  · intro p
    constructor
    · exact success_inv env boardState moves p
    · rintro ⟨gameMap, s1, flag, s2, s3, hmap, hpre, hexec, hpost, rfl⟩
      rw [run_of_success env boardState moves gameMap s1 s2 flag s3 hmap hpre hexec hpost]
  · intro err hmap
    rw [run_of_getMap_error env boardState moves err hmap]
    exact ⟨_, rfl, rfl⟩
  · intro gameMap s1 err hmap hpre
    rw [run_of_preUpdate_error env boardState moves gameMap s1 err hmap hpre]
    exact ⟨_, rfl, rfl⟩
  · intro gameMap s1 flag s2 err hmap hpre hexec
    rw [run_of_execute_error env boardState moves gameMap s1 s2 flag err hmap hpre hexec]
    exact ⟨_, rfl, rfl⟩
  · intro gameMap s1 flag s2 s3 err hmap hpre hexec hpost
    rw [run_of_postUpdate_error env boardState moves gameMap s1 s2 s3 flag err hmap hpre hexec
      hpost]
    exact ⟨_, rfl, rfl⟩

/-- C16, at collaborators that all succeed and at each of the four failures. -/
theorem nil_error_iff_all_succeed_witness :
    (createNextBoardState noopProviders (some onePlayerState) []).result
      = Except.ok (some { onePlayerState with Turn := wrapInt64 (onePlayerState.Turn + 1) }, none) ∧
    (∃ e, (createNextBoardState unknownMapProviders (some onePlayerState) []).result
      = Except.ok (none, some e) ∧
      e.Error = loadMapContext ++ fmtSharpV "standard" ++ ": " ++ "map not found") ∧
    (∃ e, (createNextBoardState preFailingProviders (some onePlayerState) []).result
      = Except.ok (none, some e) ∧ e.Unwrap = some stubError) ∧
    (∃ e, (createNextBoardState executeFailingProviders (some onePlayerState) []).result
      = Except.ok (some { onePlayerState with Food := [] }, some e) ∧
      e.Unwrap = some stubError) ∧
    (∃ e, (createNextBoardState postFailingProviders (some onePlayerState) []).result
      = Except.ok (some { onePlayerState with Hazards := [] }, some e) ∧
      e.Unwrap = some stubError) :=
  ⟨((nil_error_iff_all_succeed noopProviders (some onePlayerState) []).1 _).2
      ⟨(), some onePlayerState, false, some onePlayerState, onePlayerState,
        rfl, rfl, rfl, rfl, rfl⟩,
    (nil_error_iff_all_succeed unknownMapProviders (some onePlayerState) []).2.1
      (.errorString "map not found") rfl,
    (nil_error_iff_all_succeed preFailingProviders (some onePlayerState) []).2.2.1
      () none stubError rfl rfl,
    (nil_error_iff_all_succeed executeFailingProviders (some onePlayerState) []).2.2.2.1
      () (some onePlayerState) false (some { onePlayerState with Food := [] }) stubError
      rfl rfl rfl,
    (nil_error_iff_all_succeed postFailingProviders (some onePlayerState) []).2.2.2.2
      () (some onePlayerState) false (some onePlayerState)
      (some { onePlayerState with Hazards := [] }) stubError rfl rfl rfl rfl⟩

/-! ## Players of the encoded board -/

/-- C17. For every board state whose players in play all have a non-empty body,
the players of the board returned by `convertStateToBoard` are the conversions
of the players of the state that are not eliminated, one for one and in their
order: there are as many as players not eliminated, and their ids, healths and
bodies are those of the players not eliminated, in the same order. -/
theorem encode_players_subsequence (st : rules.BoardState)
    (hbody : ∀ s ∈ st.Snakes, s.EliminatedCause = rules.NotEliminated → s.Body ≠ []) :
    ∃ b, convertStateToBoard st = Except.ok b ∧
      List.Forall₂ (fun s c => convertRulesSnake s = Except.ok c)
        (st.Snakes.filter (fun s => decide (s.EliminatedCause = rules.NotEliminated)))
        b.Snakes ∧
      b.Snakes.length
        = st.Snakes.countP (fun s => decide (s.EliminatedCause = rules.NotEliminated)) ∧
      b.Snakes.map (fun c => (c.ID, c.Health, c.Body))
        = (st.Snakes.filter (fun s => decide (s.EliminatedCause = rules.NotEliminated))).map
            (fun s => (s.ID, s.Health, s.Body.map client.CoordFromPoint)) := by
  obtain ⟨b, hb⟩ := convertStateToBoard_total st hbody
  have hall := convertRulesSnakes_ok st.Snakes b.Snakes (convertStateToBoard_ok st b hb).1
  refine ⟨b, hb, hall, ?_, ?_⟩
  · rw [List.countP_eq_length_filter]
    exact hall.length_eq.symm
  · have hgen : ∀ (xs : List rules.Snake) (ys : List client.Snake),
        List.Forall₂ (fun s c => convertRulesSnake s = Except.ok c) xs ys →
        ys.map (fun c => (c.ID, c.Health, c.Body))
          = xs.map (fun s => (s.ID, s.Health, s.Body.map client.CoordFromPoint)) := by
      intro xs ys h
      induction h with
      | nil => rfl
      | cons hab _ ih =>
        obtain ⟨hid, hhealth, hbd, -⟩ := convertRulesSnake_ok _ _ hab
        rw [coordFromPointArray_eq_map] at hbd
        simp only [List.map_cons, ih, hid, hhealth, hbd]
    exact hgen _ _ hall

/-- C17, at `stateWithEliminated`: of its players a, b (eliminated) and c, the
board has a and c, in this order. -/
theorem encode_players_subsequence_witness :
    (∀ s ∈ stateWithEliminated.Snakes,
      s.EliminatedCause = rules.NotEliminated → s.Body ≠ []) ∧
    ∃ b, convertStateToBoard stateWithEliminated = Except.ok b ∧
      List.Forall₂ (fun s c => convertRulesSnake s = Except.ok c)
        (stateWithEliminated.Snakes.filter
          (fun s => decide (s.EliminatedCause = rules.NotEliminated)))
        b.Snakes ∧
      b.Snakes.length
        = stateWithEliminated.Snakes.countP
            (fun s => decide (s.EliminatedCause = rules.NotEliminated)) ∧
      b.Snakes.map (fun c => (c.ID, c.Health, c.Body))
        = (stateWithEliminated.Snakes.filter
            (fun s => decide (s.EliminatedCause = rules.NotEliminated))).map
            (fun s => (s.ID, s.Health, s.Body.map client.CoordFromPoint)) :=
  ⟨by decide, encode_players_subsequence stateWithEliminated (by decide)⟩

/-! ## Decode followed by encode -/

/-- C18. Every player made by `convertSnake` has elimination status
`NotEliminated`, and so has every player of a decoded board. Hence, for every
wire board whose players all have a non-empty body,
`convertStateToBoard (convertBoardToState b)` returns a board with exactly as
many players as `b`, which match those of `b` one for one and in the same order (same id,
health and body). -/
theorem decode_players_in_play (b : client.Board) (hbody : ∀ c ∈ b.Snakes, c.Body ≠ []) :
    (∀ c : client.Snake, (convertSnake c).EliminatedCause = rules.NotEliminated) ∧
    (∀ s ∈ (convertBoardToState b).Snakes, s.EliminatedCause = rules.NotEliminated) ∧
    ∃ b', convertStateToBoard (convertBoardToState b) = Except.ok b' ∧
      b'.Snakes.length = b.Snakes.length ∧
      b'.Snakes.map (fun c => c.ID) = b.Snakes.map (fun c => c.ID) ∧
      List.Forall₂ (fun c' c => c'.ID = c.ID ∧ c'.Health = c.Health ∧ c'.Body = c.Body)
        b'.Snakes b.Snakes := by
  obtain ⟨-, -, -, -, hsn, -⟩ := convertBoardToState_fields b
  have halive : ∀ s ∈ (convertBoardToState b).Snakes,
      s.EliminatedCause = rules.NotEliminated := by
    intro s hs
    rw [hsn] at hs
    obtain ⟨c, -, rfl⟩ := List.mem_map.mp hs
    exact convertSnake_notEliminated c
  have htotal : ∃ b', convertStateToBoard (convertBoardToState b) = Except.ok b' := by
    apply convertStateToBoard_total
    intro s hs _
    rw [hsn] at hs
    obtain ⟨c, hc, rfl⟩ := List.mem_map.mp hs
    exact convertSnake_body_ne_nil c (hbody c hc)
  obtain ⟨b', hb'⟩ := htotal
  refine ⟨convertSnake_notEliminated, halive, b', hb', ?_⟩
  have hall := convertRulesSnakes_ok _ _ (convertStateToBoard_ok _ b' hb').1
  rw [hsn, filter_notEliminated_convertSnake, List.forall₂_map_left_iff] at hall
  refine ⟨hall.length_eq.symm, ?_, ?_⟩
  swap
  · refine (List.Forall₂.flip hall).imp ?_
    intro c' c hc
    obtain ⟨hid, hhealth, hbd, -⟩ := convertRulesSnake_ok _ _ hc
    refine ⟨hid, hhealth, ?_⟩
    rw [hbd]
    exact coordFromPointArray_convertCoordsToPoints c.Body
  have hgen : ∀ (xs ys : List client.Snake),
      List.Forall₂ (fun c c' => convertRulesSnake (convertSnake c) = Except.ok c') xs ys →
      ys.map (fun c => c.ID) = xs.map (fun c => c.ID) := by
    intro xs ys h
    induction h with
    | nil => rfl
    | cons hab _ ih =>
      obtain ⟨hid, -⟩ := convertRulesSnake_ok _ _ hab
      simp only [List.map_cons, ih, hid, convertSnake]
  exact hgen _ _ hall

/-- C18, at a board with two players. -/
theorem decode_players_in_play_witness :
    (∀ c ∈ boardDressed.Snakes, c.Body ≠ []) ∧
    (∀ s ∈ (convertBoardToState boardDressed).Snakes,
      s.EliminatedCause = rules.NotEliminated) ∧
    ∃ b', convertStateToBoard (convertBoardToState boardDressed) = Except.ok b' ∧
      b'.Snakes.length = boardDressed.Snakes.length ∧
      b'.Snakes.map (fun c => c.ID) = boardDressed.Snakes.map (fun c => c.ID) ∧
      List.Forall₂ (fun c' c => c'.ID = c.ID ∧ c'.Health = c.Health ∧ c'.Body = c.Body)
        b'.Snakes boardDressed.Snakes :=
  ⟨by decide, (decode_players_in_play boardDressed (by decide)).2⟩

/-- C19. A wire board that has a player with an empty body list is decoded by
`convertBoardToState` into a state that has a player in play with an empty
body, and `convertStateToBoard` panics on that state with an index out of
range, at `snake.Body[0]`. -/
theorem decode_accepts_encode_panics (b : client.Board) (hempty : ∃ c ∈ b.Snakes, c.Body = []) :
    (∃ st, convertBoardToState b = st ∧
      ∃ s ∈ st.Snakes, s.EliminatedCause = rules.NotEliminated ∧ s.Body = [] ∧
        s.Body[0]? = none ∧ convertRulesSnake s = Except.error Panic.indexOutOfRange) ∧
    convertStateToBoard (convertBoardToState b) = Except.error Panic.indexOutOfRange := by
  obtain ⟨c, hc, hcb⟩ := hempty
  obtain ⟨-, -, -, -, hsn, -⟩ := convertBoardToState_fields b
  have hbody : (convertSnake c).Body = [] := by
    show convertCoordsToPoints c.Body = []
    rw [hcb]
    rfl
  have hmem : convertSnake c ∈ (convertBoardToState b).Snakes := by
    rw [hsn]
    exact List.mem_map_of_mem _ hc
  refine ⟨⟨_, rfl, convertSnake c, hmem, convertSnake_notEliminated c, hbody, ?_, ?_⟩, ?_⟩
  · rw [hbody]
    rfl
  · unfold convertRulesSnake
    rw [hbody]
    rfl
  · exact convertStateToBoard_panics _ ⟨convertSnake c, hmem, convertSnake_notEliminated c, hbody⟩

/-- C19, at a board whose second player has an empty body list. -/
theorem decode_accepts_encode_panics_witness :
    (∃ c ∈ boardWithHeadlessPlayer.Snakes, c.Body = []) ∧
    (∃ st, convertBoardToState boardWithHeadlessPlayer = st ∧
      ∃ s ∈ st.Snakes, s.EliminatedCause = rules.NotEliminated ∧ s.Body = [] ∧
        s.Body[0]? = none ∧ convertRulesSnake s = Except.error Panic.indexOutOfRange) ∧
    convertStateToBoard (convertBoardToState boardWithHeadlessPlayer)
      = Except.error Panic.indexOutOfRange :=
  ⟨by decide, decode_accepts_encode_panics boardWithHeadlessPlayer (by decide)⟩

end Fuzzer
